import Mathlib

/-!
SunCoin: emission lock policy and node supervisor.

A shallow embedding of
`src/vendor/github.com/skycoin/skycoin/src/visor/distribution.go` (namespace `visor`)
and of `src/cmd/suncoin/suncoin.go` (namespace `suncoin`): the main goroutine of `Run`
as a trace of events, the goroutines it launches and the interrupt listeners as a
transition system over the wait group and the two channels, and `InitTransaction`.

Go slices and arrays are Lean lists, an out-of-range index or slice bound is `none`,
`uint64` values are natural numbers below `2 ^ 64`.
-/

namespace visor

/-- The package-level constants of `distribution.go` together with the hardcoded table.
They are gathered in a record so that properties can be stated for other constant sets
than the shipped one. -/
structure Constants where
  /-- The constant `MaxCoinSupply uint64`. -/
  MaxCoinSupply : Nat
  /-- The constant `DistributionAddressesTotal uint64`. -/
  DistributionAddressesTotal : Nat
  /-- The constant `InitialUnlockedCount uint64`. -/
  InitialUnlockedCount : Nat
  /-- The constant `UnlockAddressRate uint64`. -/
  UnlockAddressRate : Nat
  /-- The constant `UnlockTimeInterval uint64`. -/
  UnlockTimeInterval : Nat
  /-- The array `var distributionAddresses = [DistributionAddressesTotal]string`. -/
  distributionAddresses : List String

/-- The hardcoded table `distributionAddresses` (distribution.go, lines 96-197). -/
def distributionAddresses : List String := [
  "2EvQ2MwPeqXqaHs9qRFzWAoByz4ph64jSKU",
  "2BR9QGdm5hMxRkr4C5M21DXjWvxB26WjHeX",
  "Nnw5SgEKuUmsHGWBSzashbf5D98AUouXUh",
  "YVj3NEsacjsM67iPfyMY59vPuecwnp6QWz",
  "25Dvmd5uBvmZNsTRVDEBsQ6JRVpqqe7gDNe",
  "22oySh75yDv9vtBYHqgfYydEV8atTBwAnpp",
  "3Lrz2bDGcT7DprDeMJZ2guEyivAJ2phvtG",
  "td595rUgWWzMsZcudMnTVYiW6BRvaghPKw",
  "2ADzbt8F186254xMG6DvyMCfbsXdeiLA2qn",
  "NCpnHjMN9ta94SzJLZoFqCq9jpNqsHmeRh",
  "2JkBfkkvypKCsJYRVgMHwuTupf5u6j21onr",
  "2AgYKqcGFru1pkFbheNUzWkvKUKjY859AEJ",
  "2fJ7F7vviEWVRFBRKHGQVN59YiSKS2KPg5X",
  "2HnBLgUiZ3s843ik9RqgnArSNPXdagP99M1",
  "7wGF8xvTyVuKMAEsUWzbNqrmEwp56PoMcG",
  "2HzvsMgGU7Pg3pkg13AFAmt93cw2gEWiPc8",
  "2MURz4XbBRKriEL9UV8ixxZA837Hmpgtaqc",
  "2F3cbdN2tf1nKS6h5nfzUeMnoj7uRkjLy8e",
  "t4hvfvVChVk6qVajCnoqTTGNP4FTftJytu",
  "2bJsY7zjFH6iq6Fs1fnyX2LpzB6rPXVPWXC",
  "2R3MVa4AeY3UoZF2nubYDuxTesU91kiD2jd",
  "joVSFdo4CaA19Y2jbJJZ5BJyitZqBnmX9M",
  "Rw68wydU8cE33YLnNYq2eDksARfChZYFEp",
  "dDuYLwRQ1yvt9iQetEKrUGhPivAxB9n5M1",
  "2jWneyxn84PByzXMRTE3hnCJtNxBEYC2ufv",
  "D9KZjrFN2etU2SHFBA2G7jDSddh6ZCy26M",
  "b8KG4qRuxkHt29mpP5LNUuwQwBZhUG6RJB",
  "2LfmBFMFAsNf2ZDyNEwoH8RWNHmxSbQvqSb",
  "ruKpSMdayPGyFtYG9EH2QTpcrmTvF4EjAV",
  "2iej2x3fEk4sraSXeShVu65KH2NUAvJFg9N",
  "qcu4nqYcX5rGC3EmoXU8q22vDcPUMpPYXY",
  "2YhrGpKUWXfHrtW6c9FKVKqYrxVHVBXGind",
  "2H5mmwbibJz9KxpwRAuZ4ezvTSDL8iNUQGH",
  "zeh9v9afW7a3Ji5e7SGdzb3Sk2xajTXUMf",
  "xV3XQzAR86Y6r7qA49BsFcLxpQ4xhtASq7",
  "EtNKuCeca61htJigtYuove3Yb6H2Scpitk",
  "kfzfkb7TBQLGaBSN4ssjyfMNfscYjdYcy5",
  "27AKWwt4pxtixUM9PAG4J1at7w8oBivJms5",
  "2F5HzZU4RNYZbjmbCCXbDAsHAcqmAMZkpkp",
  "bnEUiH3HVq95pySibLRxHrTLgxQJhsTgRi",
  "7n9m5HZrVDVCNmVYirkG6WB18fHRnF3ZwK",
  "2GpNJcvfoBLTd21oVFvGmvyshmu5GjUDNgA",
  "2LM8uSr35BvyXNihhzTdSNasbYVX4yEGuUi",
  "zhixmLqy3fYcRUAMZZZuABtwVnxwfXriV3",
  "9n5yUAhSwbGZMMhC7KFNCjZnqC918tnjoY",
  "2m6PiUioXSQKAQCqVj7T5fzrVMAi5DX8tU5",
  "2Dspnm7nyGZhtTB5z8imUoQGfgo1SS6EwpC",
  "JHcV8bshqMKatNsBGLqrGWrzH7SDJepcS1",
  "2DDHTwwtBssBeGmoJS9XsVBXnDiwk5HC3tb",
  "2cAg1FEdMnPZH87xUcRtAoppFdRYwQ4YtcC",
  "LPbrt9qoyj8FCGF2dfBb699xyzg5kCc4Q4",
  "QkHTDahAxUh4UDZpTeU2CGkdBrC5QUcPQu",
  "23XWhmcbvDta6CSFC1gh2hiSUbxHjEtKuum",
  "2ceiFAce8qiFo4f6Lnwo7C3UKSUbgmxULPJ",
  "2Ve4PB7skoMyvVZNfnCd5CXkgoocM7i9kHp",
  "CXTjHi3RrUVu6rf3yNiJXbuCeMreSKA1ko",
  "2VyZQNNtdqn8XZzuUsWHzhJyjvzScoPM1sX",
  "2UZsufCFj8njZjXEXUiqeLSf2W5TYc8EfF5",
  "Dnsmrt8PcecpTr6nL8aA4ojmTu48ASU29b",
  "2JGbfKLTkuBqp4qdbnf6ozMwk1UjmEUNS6P",
  "23yiZLFkJpfbgYouDW7xV5ts8VnrLfveGD8",
  "giW9AvmytkeVxu8SPa8twnosu3Rk6rY5b6",
  "21b7EtTzmKaK1axChQDA3JmXpqCJKXbJ9z7",
  "2DYKHug2b52ekqe7Fk3FT3rt5Y72A8vELwk",
  "2BTttXwBVcBv5GvzGiW9V2aBwTfmkoT1DeP",
  "KDNQ85saCEzsAdwZTZqmarcc38MyDJxNbt",
  "23ZepZd1z21F5UiQTAq4y93XCrxRb558PGs",
  "2HKxSby8dchYjfHnMLkjGZCELDhqDs9jGJS",
  "LC3E2iur5MjbN9L6WhxTYW6ApiMU6hCygs",
  "2kg2qEKjhzdpPrGbV7Sp96muaC8VuJmdTRU",
  "237xfxqmsCnRoxRt51YyLe2iNgkXFUfbZB9",
  "2scTNQnfyZaDHPAhJxqMufYNa6pzzgmFJB",
  "B9Whv9d9TGYC7AHi9QJnANa1f2dY3Jny1r",
  "2EnSJzmbNdKNW8BBHavyTkVtyt6Y7j25ETd",
  "MdDzJg7RGqffo87XpmEVvFGPHAnpr9YmeS",
  "6Pc7ibaQ4CHQLH4HygrgRY9dMcGtRVoqSs",
  "2ZHRzCmZvdQV5R1Fi2c2STAo82VkHqgmvuc",
  "2Xay2CH2usdPYRDwoqQusMPxDEAuS76aAm2",
  "dtEeRybvCVVLeXqbmi4tzzzD5AMYFeeH9A",
  "2SpbEq7LzbEFvZFAFqR7fXBH9aibD2B6iQM",
  "CE5aNvp4qcBeHgaSyF5rFh9k6MamdyfHna",
  "2cEnxLn6h2ojHGC5TRS2BSSy7fgfFodi8dA",
  "WnW3cnehTBAsVDZ7nY8sNb2NM6NQabMPpe",
  "2hFKt4uBBpaT2Qt4QDuWi3cX3rAqQKKwtba",
  "6PxJUUfxZCGhMNueFCsPhGeCNHyXmCmPsd",
  "2atTZmiLmu8oxabcHUYFvQ9KcxMSAtxSKnu",
  "CRjdXLQb4CFbXxcEw2ER42Z95EJamjHkeB",
  "21TaWiWTCZBnC5Mhr8FFGkcg37jdjS12GPc",
  "27sZ4KJbJtbhgiBgtzsNknRc7H7h8YwDNq5",
  "w4MD35w8PTeexgQvbDPMpMf1UhZUVGkdhD",
  "A6FFCRPe7BvgE8oy7o5dhnuSVfSo8vtnkB",
  "2UawChW9sj9EEaVyimore9sbov3fRzif66k",
  "8Eb9dhfj6aTJf6os4M7zmaH1Gy95fmufUD",
  "2GW2zRVkxUkyGGxb4jXvA3TJVX13eS4AjTU",
  "FfsRWPhMRoSMmRFcmMb1knQiAC8RZDRNnA",
  "i5fkXenkrwfBhQUpMLYExJt4T8HYm5Swor",
  "2Q2FJJKULZHjbYdP8Nx5C4cBpoX8nw2gh4a",
  "2PWe6GiM3oKExhXsPHSbwnf3A5fffMKPEE7",
  "nP3BsoFkpbQgYHtp8onsQTFh32VkFQWibB",
  "w2xGLPgGgyTkSVnRgXhyiGpugxCFyMAFpc"
]

/-- The constants as shipped in `distribution.go`: `MaxCoinSupply = 3e8`,
`DistributionAddressesTotal = 100`, `InitialUnlockedCount = 1`,
`UnlockAddressRate = 5`, `UnlockTimeInterval = 60 * 60 * 24 * 365`. -/
def shipped : Constants where
  MaxCoinSupply := 300000000
  DistributionAddressesTotal := 100
  InitialUnlockedCount := 1
  UnlockAddressRate := 5
  UnlockTimeInterval := 60 * 60 * 24 * 365
  distributionAddresses := distributionAddresses

/-- The shipped constant set with another value of `InitialUnlockedCount`. -/
def shippedWith (n : Nat) : Constants := { shipped with InitialUnlockedCount := n }

/-- A constant set with 7 distribution addresses, a total that does not divide the
shipped supply. -/
def sevenAddresses : Constants :=
  { shipped with
    DistributionAddressesTotal := 7
    distributionAddresses := distributionAddresses.take 7 }

/-- The constant `DistributionAddressInitialBalance uint64 = MaxCoinSupply / DistributionAddressesTotal`. -/
def DistributionAddressInitialBalance (k : Constants) : Nat :=
  (k.MaxCoinSupply / k.DistributionAddressesTotal) % 2 ^ 64

/-- The package `init` function: panics when the supply is not perfectly divisible. -/
def init (k : Constants) : Except String Unit :=
  if k.MaxCoinSupply % k.DistributionAddressesTotal ≠ 0 then
    .error "MaxCoinSupply should be perfectly divisible by DistributionAddressesTotal"
  else
    .ok ()

/-- Go `make([]string, n)`: `n` zero-valued strings. -/
def makeStrings (n : Nat) : List String := List.replicate n ""

/-- Go `a - b` on `uint64` constants: a negative result does not fit the type. -/
def subU64 (a b : Nat) : Option Nat :=
  if b ≤ a then some (a - b) else none

/-- Go slice expression `xs[lo:hi]`, out of range when `lo > hi` or `hi > len(xs)`. -/
def sliceOf (xs : List String) (lo hi : Nat) : Option (List String) :=
  if lo ≤ hi ∧ hi ≤ xs.length then some ((xs.take hi).drop lo) else none

/-- Go assignment `xs[i] = v`, out of range when `i >= len(xs)`. -/
def assign (xs : List String) (i : Nat) (v : String) : Option (List String) :=
  if i < xs.length then some (xs.set i v) else none

/-- The loop `for i := range s` with body `addrs[i] = table[off + i]`, shared by the
three getters and run over the indices `0 .. n - 1`. -/
def copyLoop (table : List String) (off n : Nat) (addrs : List String) :
    Option (List String) :=
  (List.range n).foldlM (fun acc i => do
    let v ← table[off + i]?
    assign acc i v) addrs

/-- Go `GetDistributionAddresses`: a copy of the hardcoded table. -/
def GetDistributionAddresses (k : Constants) : Option (List String) :=
  let addrs := makeStrings k.distributionAddresses.length
  copyLoop k.distributionAddresses 0 k.distributionAddresses.length addrs

/-- Go `GetUnlockedDistributionAddresses`. -/
def GetUnlockedDistributionAddresses (k : Constants) : Option (List String) := do
  let addrs := makeStrings k.InitialUnlockedCount
  let s ← sliceOf k.distributionAddresses 0 k.InitialUnlockedCount
  copyLoop k.distributionAddresses 0 s.length addrs

/-- Go `GetLockedDistributionAddresses`. -/
def GetLockedDistributionAddresses (k : Constants) : Option (List String) := do
  let n ← subU64 k.DistributionAddressesTotal k.InitialUnlockedCount
  let addrs := makeStrings n
  let s ← sliceOf k.distributionAddresses k.InitialUnlockedCount
    k.distributionAddresses.length
  copyLoop k.distributionAddresses k.InitialUnlockedCount s.length addrs

/-- The part of `coin.UxBody` read here; `α` is the type `cipher.Address`. -/
structure UxBody (α : Type) where
  Address : α
  Coins : Nat
  Hours : Nat

/-- The part of `coin.UxOut` read here. -/
structure UxOut (α : Type) where
  Body : UxBody α

/-- Go map from `string` to the empty struct, as the list of its keys. -/
structure StringSet where
  keys : List String

/-- Go `make` of that map type: the empty map. -/
def StringSet.empty : StringSet := ⟨[]⟩

/-- Go `m[a] = v` with `v` the empty struct value. -/
def StringSet.insert (m : StringSet) (a : String) : StringSet :=
  if m.keys.contains a then m else ⟨a :: m.keys⟩

/-- Go `_, ok := m[a]`. -/
def StringSet.lookup (m : StringSet) (a : String) : Bool := m.keys.contains a

/-- The second loop of `TransactionIsLocked`, returning at the first locked output. -/
def spendsLocked {α : Type} (addrString : α → String) (m : StringSet) :
    List (UxOut α) → Bool
  | [] => false
  | o :: rest =>
    let uxAddr := addrString o.Body.Address
    if m.lookup uxAddr then true else spendsLocked addrString m rest

/-- Go `TransactionIsLocked`; `addrString` is `cipher.Address.String`. -/
def TransactionIsLocked {α : Type} (k : Constants) (addrString : α → String)
    (inUxs : List (UxOut α)) : Option Bool := do
  let lockedAddrs ← GetLockedDistributionAddresses k
  let lockedAddrsMap := lockedAddrs.foldl (fun m a => m.insert a) StringSet.empty
  pure (spendsLocked addrString lockedAddrsMap inUxs)

end visor


namespace suncoin

/-- Go `error` values that are not `nil`. -/
abbrev Error := String

/-- The subsystem handles of `Run`: `d` (the network daemon), `rpc` and `webInterface`. -/
inductive Handle
  | daemon
  | rpc
  | web
  deriving DecidableEq, Repr

/-- The fields of `Config` that `Run` and `createGUI` branch on. -/
structure Config where
  WebInterface : Bool
  WebInterfaceHTTPS : Bool
  RPCInterface : Bool
  LaunchBrowser : Bool
  PrintWebInterfaceAddress : Bool
  ProfileCPU : Bool
  HTTPProf : Bool
  ConnectTo : String

/-- Which case of the `select` of `Run` fires. -/
inductive Cause
  /-- The case `<-quit`: `catchInterrupt` closed the channel after an interrupt. -/
  | quit
  /-- The case `err := <-errC`: a worker sent its error. -/
  | errC (err : Error)
  deriving DecidableEq, Repr

/-- What the collaborators of `Run` answer: the error (`none` is `nil`) returned by each
fallible call, the case of the `select` that fires (`none`: neither ever does) and
whether `wg.Wait()` returns. A constructor that returns a `nil` error returns a handle,
and `Shutdown`, `closelog` return to their caller. -/
structure World where
  osCreate : Option Error
  initLogging : Option Error
  OpenDB : Option Error
  NewDaemon : Option Error
  webrpcNew : Option Error
  CreateCertIfNotExists : Option Error
  guiCreate : Option Error
  guiCreateHTTPS : Option Error
  Connect : Option Error
  selected : Option Cause
  waitReturns : Bool

/-- What the main goroutine does, in program order. Informational logging is left out. -/
inductive Event
  | println
  | logError (err : Error)
  | logFatal (err : Error)
  | wgAdd
  | wgDone
  | goHTTPProf
  | goCatchInterrupt
  | goCatchDebug
  | newHandle (h : Handle)
  | connected
  /-- The `go` statement launching the worker that calls `Run` (or `Serve`) on `h`. -/
  | goRun (h : Handle)
  | goLaunchBrowser
  | shutdown (h : Handle)
  | closelog
  | wgWait
  | goodbye
  deriving DecidableEq, Repr

/-- A stretch of the main goroutine: the events it produced and, unless the goroutine
stopped in it (`Run` returned, or `log.Fatal` ended the process), the value it goes on
with. -/
structure Step (α : Type) where
  events : List Event
  next : Option α

/-- Run `x`, then `f` on its value unless the goroutine stopped in `x`. -/
def Step.bind {α β : Type} (x : Step α) (f : α → Step β) : Step β :=
  match x.next with
  | none => ⟨x.events, none⟩
  | some a => ⟨x.events ++ (f a).events, (f a).next⟩

instance : Monad Step where
  pure a := ⟨[], some a⟩
  bind := Step.bind

/-- Record one event. -/
def emit (e : Event) : Step Unit := ⟨[e], some ()⟩

/-- Go `return` inside `Run`: the goroutine goes no further. -/
def ret {α : Type} : Step α := ⟨[], none⟩

/-- Go `initProfiling`; `log.Fatal` ends the process. -/
def initProfiling (w : World) (httpProf profileCPU : Bool) : Step Unit := do
  if profileCPU then
    match w.osCreate with
    | some err => do emit (.logFatal err); ret
    | none => pure ()
  if httpProf then
    emit .goHTTPProf

/-- Go `createGUI`: the pair `(*gui.Server, error)` it returns. -/
def createGUI (c : Config) (w : World) : Step (Option Handle × Option Error) :=
  if c.WebInterfaceHTTPS then
    match w.CreateCertIfNotExists with
    | some err => do emit (.logError err); pure (none, some err)
    | none =>
      match w.guiCreateHTTPS with
      | some err => do emit (.logError err); pure (none, some err)
      | none => pure (some .web, none)
  else
    match w.guiCreate with
    | some err => do emit (.logError err); pure (none, some err)
    | none => pure (some .web, none)

/-- The local variables `rpc` and `webInterface` of `Run` (`none` is `nil`); the daemon
`d` is never `nil` once `Run` got past its construction. -/
structure Handles where
  rpc : Option Handle
  webInterface : Option Handle

/-- The opening of `Run`: address printing, `initProfiling`, `initLogging`. -/
def Run.prologue (c : Config) (w : World) : Step Unit := do
  if c.PrintWebInterfaceAddress then
    emit .println
  initProfiling w c.HTTPProf c.ProfileCPU
  match w.initLogging with
  | some _ => do emit .println; ret
  | none => pure ()

/-- The signal listeners of `Run`, registered with the wait group `wg`:
`catchInterrupt(quit)` in a goroutine of its own, which holds its registration until it
returns, and `catchDebug`, launched from a function literal that the main goroutine
calls and whose deferred `wg.Done()` runs as soon as the `go` statement is done. -/
def Run.listeners : Step Unit := do
  emit .wgAdd
  emit .goCatchInterrupt
  emit .wgAdd
  emit .goCatchDebug
  emit .wgDone

/-- The database open of `Run`: a failure is logged and `Run` returns. -/
def Run.openDB (w : World) : Step Unit :=
  match w.OpenDB with
  | some err => do emit (.logError err); ret
  | none => pure ()

/-- The daemon construction of `Run`: a failure is logged and `Run` returns. -/
def Run.newDaemon (w : World) : Step Unit :=
  match w.NewDaemon with
  | some err => do emit (.logError err); ret
  | none => emit (.newHandle .daemon)

/-- The RPC construction of `Run`, the value of its variable `rpc`. -/
def Run.newRPC (c : Config) (w : World) : Step (Option Handle) :=
  if c.RPCInterface then
    match w.webrpcNew with
    | some err => do emit (.logError err); ret
    | none => do emit (.newHandle .rpc); pure (some Handle.rpc)
  else pure none

/-- The web interface construction of `Run`, the value of its variable `webInterface`. -/
def Run.newWeb (c : Config) (w : World) : Step (Option Handle) :=
  if c.WebInterface then do
    let (s, err) ← createGUI c w
    match err with
    | some err => do emit (.logError err); ret
    | none => do emit (.newHandle .web); pure s
  else pure none

/-- The forced connect of `Run` (debug only), made when `ConnectTo` is set. -/
def Run.connect (c : Config) (w : World) : Step Unit :=
  if c.ConnectTo != "" then
    match w.Connect with
    | some err => do emit (.logError err); ret
    | none => emit .connected
  else pure ()

/-- The startup of `Run`: `visor.OpenDB`, `daemon.NewDaemon`, `webrpc.New` when
`RPCInterface`, `createGUI` when `WebInterface`, the forced connect when `ConnectTo`
is set, in this order. -/
def Run.startup (c : Config) (w : World) : Step Handles := do
  Run.openDB w
  Run.newDaemon w
  let rpc ← Run.newRPC c w
  let webInterface ← Run.newWeb c w
  Run.connect c w
  pure ⟨rpc, webInterface⟩

/-- The worker goroutines of `Run`, each registered with `wg` and launched with `go`:
the daemon, the webrpc when `RPCInterface`, the web interface when `WebInterface`
(and then the browser launcher when `LaunchBrowser`). -/
def Run.launch (c : Config) : Step Unit := do
  emit .wgAdd
  emit (.goRun .daemon)
  if c.RPCInterface then do
    emit .wgAdd
    emit (.goRun .rpc)
  if c.WebInterface then do
    emit .wgAdd
    emit (.goRun .web)
    if c.LaunchBrowser then do
      emit .wgAdd
      emit .goLaunchBrowser

/-- The `select` of `Run` on `quit` and `errC`. -/
def Run.await (w : World) : Step Unit :=
  match w.selected with
  | none => ret
  | some .quit => pure ()
  | some (.errC err) => emit (.logError err)

/-- The shutdown sequence of `Run`. -/
def Run.shutdown (hs : Handles) (w : World) : Step Unit := do
  if let some h := hs.rpc then
    emit (.shutdown h)
  if let some h := hs.webInterface then
    emit (.shutdown h)
  emit (.shutdown .daemon)
  emit .closelog
  emit .wgWait
  if w.waitReturns then
    emit .goodbye
  else ret

/-- Go `Run`, the node supervisor, as run by the main goroutine. -/
def Run (c : Config) (w : World) : Step Unit := do
  Run.prologue c w
  Run.listeners
  let hs ← Run.startup c w
  Run.launch c
  Run.await w
  Run.shutdown hs w

/-- The events of one run of `Run`. -/
def trace (c : Config) (w : World) : List Event := (Run c w).events

/-- The handles on which `Shutdown` is called, in call order. -/
def shutdowns (t : List Event) : List Handle :=
  t.filterMap fun e => match e with
    | .shutdown h => some h
    | _ => none

/-- The handles whose worker goroutine is launched, in launch order. -/
def started (t : List Event) : List Handle :=
  t.filterMap fun e => match e with
    | .goRun h => some h
    | _ => none

/-- The handles that were constructed, in construction order. -/
def constructed (t : List Event) : List Handle :=
  t.filterMap fun e => match e with
    | .newHandle h => some h
    | _ => none

/-- The events that end the shutdown sequence: `closelog()`, `wg.Wait()` and the final
log line. -/
def closing (t : List Event) : List Event :=
  t.filter fun e => e = .closelog || e = .wgWait || e = .goodbye

/-- The handle calls of a stretch (constructions, worker launches, shutdowns) and its
closing events. -/
structure Calls where
  constructed : List Handle
  started : List Handle
  shutdowns : List Handle
  closing : List Event

/-- Calls of two consecutive stretches. -/
def Calls.append (a b : Calls) : Calls :=
  ⟨a.constructed ++ b.constructed, a.started ++ b.started, a.shutdowns ++ b.shutdowns,
    a.closing ++ b.closing⟩

/-- The handle calls among some events. -/
def calls (t : List Event) : Calls := ⟨constructed t, started t, shutdowns t, closing t⟩

/-- The error returned by `createGUI` (`none` is `nil`). -/
def createGUI.err (c : Config) (w : World) : Option Error :=
  match (createGUI c w).next with
  | some (_, err) => err
  | none => none

/-- One of the startup steps of `Run` is given an error: the database open, the daemon
construction, the RPC construction (when `RPCInterface`), the web interface construction
(when `WebInterface`) or the forced connect (when `ConnectTo` is set). -/
def StartupFails (c : Config) (w : World) : Prop :=
  w.OpenDB ≠ none ∨ w.NewDaemon ≠ none ∨
  (c.RPCInterface = true ∧ w.webrpcNew ≠ none) ∨
  (c.WebInterface = true ∧ createGUI.err c w ≠ none) ∨
  (c.ConnectTo ≠ "" ∧ w.Connect ≠ none)

instance (c : Config) (w : World) : Decidable (StartupFails c w) := by
  unfold StartupFails; infer_instance

/-- Startup succeeds: `Run` gets past profiling and logging setup, and no startup step
is given an error. -/
def StartupSucceeds (c : Config) (w : World) : Prop :=
  (c.ProfileCPU = true → w.osCreate = none) ∧ w.initLogging = none ∧ ¬ StartupFails c w

instance (c : Config) (w : World) : Decidable (StartupSucceeds c w) := by
  unfold StartupSucceeds; infer_instance

/-- The handles `Run` constructs in a configuration: the daemon always, the RPC server
when `RPCInterface`, the web interface when `WebInterface`, in this order. -/
def enabled (c : Config) : List Handle :=
  [Handle.daemon] ++ (if c.RPCInterface then [Handle.rpc] else []) ++
    (if c.WebInterface then [Handle.web] else [])

/-- A world in which no call fails, the given case of the `select` fires and `wg.Wait()`
returns. -/
def World.calm (cause : Cause) : World :=
  { osCreate := none, initLogging := none, OpenDB := none, NewDaemon := none,
    webrpcNew := none, CreateCertIfNotExists := none, guiCreate := none,
    guiCreateHTTPS := none, Connect := none, selected := some cause, waitReturns := true }

/-- The configuration with the given `RPCInterface` and `WebInterface`, nothing else
switched on and no `ConnectTo`. -/
def Config.plain (rpcInterface webInterface : Bool) : Config :=
  { WebInterface := webInterface, WebInterfaceHTTPS := false, RPCInterface := rpcInterface,
    LaunchBrowser := false, PrintWebInterfaceAddress := false, ProfileCPU := false,
    HTTPProf := false, ConnectTo := "" }

end suncoin

namespace suncoin

/-! The goroutines around `Run`: workers, interrupt listener, wait group, channels. -/

/-- The capacity of the error channel, `errC := make(chan error, 10)`. -/
def errCCapacity : Nat := 10

/-- What a goroutine launched by `Run` does once the call it blocks in has returned. -/
inductive WorkerOp
  /-- The call `logger.Error` -/
  | logError (err : Error)
  /-- The send `errC <- err` -/
  | send (err : Error)
  /-- The deferred `wg.Done()` -/
  | wgDone
  deriving DecidableEq, Repr

/-- Whether an operation is a send on `errC`. -/
def WorkerOp.isSend : WorkerOp → Bool
  | .send _ => true
  | _ => false

/-- The body of a worker goroutine of `Run`, after `Run()` of its handle (`Serve()` for
the web interface) returned `result`: a non-`nil` error is logged and sent on `errC`;
the deferred `wg.Done()` runs last. The three workers have the same body. -/
def worker (result : Option Error) : List WorkerOp :=
  (match result with
    | some err => [.logError err, .send err]
    | none => []) ++ [.wgDone]

/-- The body of the browser launcher goroutine of `Run`, after `browser.Open` returned
`result`: an error is logged; the deferred `wg.Done()` runs last. -/
def launchBrowser (result : Option Error) : List WorkerOp :=
  (match result with
    | some err => [.logError err]
    | none => []) ++ [.wgDone]

/-- What the interrupt listeners do once `<-sigchan` delivered an interrupt. -/
inductive ListenerOp
  /-- The call `signal.Stop(sigchan)` -/
  | signalStop
  /-- The call `close(quit)` -/
  | closeQuit
  /-- The statement `go catchInterruptPanic()` -/
  | goCatchInterruptPanic
  /-- The call `printProgramStatus()` -/
  | printProgramStatus
  /-- The call `panic("SIGINT")` -/
  | panicSIGINT
  /-- The deferred `wg.Done()` of the goroutine that called `catchInterrupt` -/
  | wgDone
  deriving DecidableEq, Repr

/-- Go `catchInterrupt`, after `<-sigchan`. -/
def catchInterrupt : List ListenerOp :=
  [.signalStop, .closeQuit, .goCatchInterruptPanic]

/-- Go `catchInterruptPanic`, after `<-sigchan`. -/
def catchInterruptPanic : List ListenerOp :=
  [.signalStop, .printProgramStatus, .panicSIGINT]

/-- The goroutine of `Run` that calls `catchInterrupt(quit)`, with its deferred
`wg.Done()`. -/
def interruptListener : List ListenerOp := catchInterrupt ++ [.wgDone]

/-- A goroutine launched by `Run`: never launched, blocked in its call (`Run()` of the
handle, `browser.Open`), or back from it with operations left to execute. -/
inductive Goroutine
  | absent
  | blocked
  | ready (todo : List WorkerOp)
  deriving DecidableEq, Repr

/-- The goroutines launched in `Run.launch`. -/
inductive Routine
  | worker (h : Handle)
  | browser
  deriving DecidableEq, Repr

/-- The interrupt handling: `catchInterrupt` waits for the first interrupt; after it,
`catchInterruptPanic` waits for a further one; after that the process has panicked. -/
inductive Listener
  | listening
  | terminating
  | aborted
  deriving DecidableEq, Repr

/-- The main goroutine from the `select` of `Run` on: blocked in the `select`, past the
shutdown sequence and blocked in `wg.Wait()`, returned. -/
inductive Main
  | awaiting
  | waiting
  | exited
  deriving DecidableEq, Repr

/-- The shared state of the goroutines of a run that got through startup. -/
structure Sys where
  /-- The counter of the wait group `wg`. -/
  wg : Nat
  /-- How many times `close(quit)` was executed. -/
  quitCloses : Nat
  /-- The errors buffered in the channel `errC`. -/
  errC : List Error
  /-- How many sends on `errC` were made. -/
  sends : Nat
  listener : Listener
  daemon : Goroutine
  rpc : Goroutine
  web : Goroutine
  browser : Goroutine
  main : Main
  /-- The case of the `select` that fired. -/
  cause : Option Cause
  deriving DecidableEq, Repr

/-- The state of one launched goroutine. -/
def Sys.get (s : Sys) : Routine → Goroutine
  | .worker .daemon => s.daemon
  | .worker .rpc => s.rpc
  | .worker .web => s.web
  | .browser => s.browser

/-- Change the state of one launched goroutine. -/
def Sys.set (s : Sys) (r : Routine) (g : Goroutine) : Sys :=
  match r with
  | .worker .daemon => { s with daemon := g }
  | .worker .rpc => { s with rpc := g }
  | .worker .web => { s with web := g }
  | .browser => { s with browser := g }

/-- The operations a goroutine has to execute when its call returns `result`. -/
def Routine.body : Routine → Option Error → List WorkerOp
  | .worker _, result => suncoin.worker result
  | .browser, result => suncoin.launchBrowser result

/-- Go `wg.Done()`: panics on a counter that is already zero. -/
def Sys.done (s : Sys) : Option Sys :=
  if s.wg = 0 then none else some { s with wg := s.wg - 1 }

/-- One operation of a launched goroutine; a send on a full `errC` blocks (`none`). -/
def Sys.exec (s : Sys) : WorkerOp → Option Sys
  | .logError _ => some s
  | .send err =>
    if s.errC.length < errCCapacity then
      some { s with errC := s.errC ++ [err], sends := s.sends + 1 }
    else none
  | .wgDone => s.done

/-- One operation of the interrupt listeners. -/
def Sys.listen (s : Sys) : ListenerOp → Option Sys
  | .signalStop => some s
  | .closeQuit => some { s with quitCloses := s.quitCloses + 1 }
  | .goCatchInterruptPanic => some { s with listener := .terminating }
  | .printProgramStatus => some s
  | .panicSIGINT => some { s with listener := .aborted }
  | .wgDone => s.done

/-- What happens in a run once the main goroutine is at its `select`: the operating
system delivers an interrupt, the call a goroutine blocks in returns, a goroutine
executes its next operation, or the main goroutine gets past its `select` (by either
case) or past `wg.Wait()`. -/
inductive Action
  | interrupt
  | returns (r : Routine) (result : Option Error)
  | step (r : Routine)
  | selectQuit
  | selectErr
  | waitDone
  deriving DecidableEq, Repr

/-- One action; `none` when it cannot happen in this state. Nothing happens any more
once the process panicked or the main goroutine returned. An interrupt is handled by
the listener that is waiting for it, in one go. -/
def Sys.step (s : Sys) (a : Action) : Option Sys :=
  if s.listener = .aborted ∨ s.main = .exited then none
  else
    match a with
    | .interrupt =>
      match s.listener with
      | .listening => interruptListener.foldlM Sys.listen s
      | .terminating => catchInterruptPanic.foldlM Sys.listen s
      | .aborted => none
    | .returns r result =>
      match s.get r with
      | .blocked => some (s.set r (.ready (r.body result)))
      | _ => none
    | .step r =>
      match s.get r with
      | .ready (op :: todo) => (s.exec op).map fun s1 => s1.set r (.ready todo)
      | _ => none
    | .selectQuit =>
      if s.main = .awaiting ∧ 0 < s.quitCloses then
        some { s with main := .waiting, cause := some .quit }
      else none
    | .selectErr =>
      match s.main, s.errC with
      | .awaiting, err :: rest =>
        some { s with errC := rest, main := .waiting, cause := some (.errC err) }
      | _, _ => none
    | .waitDone =>
      if s.main = .waiting ∧ s.wg = 0 then some { s with main := .exited } else none

/-- A sequence of actions, `none` when one of them cannot happen. -/
def Sys.run (s : Sys) (acts : List Action) : Option Sys := acts.foldlM Sys.step s

/-- The state in which the main goroutine reaches its `select`: the wait group holds
the registrations made in `Run.listeners` and `Run.launch`, every launched goroutine is
blocked in its call, `catchInterrupt` is listening, `quit` is open, `errC` is empty. -/
def Sys.init (c : Config) : Sys :=
  let t := Run.listeners.events ++ (Run.launch c).events
  { wg := t.count .wgAdd - t.count .wgDone
    quitCloses := 0
    errC := []
    sends := 0
    listener := .listening
    daemon := if Handle.daemon ∈ started t then .blocked else .absent
    rpc := if Handle.rpc ∈ started t then .blocked else .absent
    web := if Handle.web ∈ started t then .blocked else .absent
    browser := if Event.goLaunchBrowser ∈ t then .blocked else .absent
    main := .awaiting
    cause := none }

/-- How many `wg.Done()` a goroutine still has to execute. -/
def Goroutine.donesLeft : Goroutine → Nat
  | .absent => 0
  | .blocked => 1
  | .ready todo => todo.count .wgDone

/-- How many sends on `errC` a worker goroutine can still make. -/
def Goroutine.sendsLeft : Goroutine → Nat
  | .absent => 0
  | .blocked => 1
  | .ready todo => todo.countP WorkerOp.isSend

end suncoin

namespace suncoin

/-- What holds of the shared state throughout a run: the wait group counts the
interrupt listener until the first interrupt is handled and every `wg.Done()` a launched
goroutine still has to execute; `quit` is closed exactly when the first interrupt was
handled; the sends made and the sends the workers can still make are at most three; the
errors buffered in `errC` are among the sends made; the browser launcher never sends. -/
structure Sys.Inv (s : Sys) : Prop where
  wg_eq : s.wg = (if s.listener = .listening then 1 else 0) + s.daemon.donesLeft +
    s.rpc.donesLeft + s.web.donesLeft + s.browser.donesLeft
  quit_eq : s.quitCloses = if s.listener = .listening then 0 else 1
  sends_le : s.sends + s.daemon.sendsLeft + s.rpc.sendsLeft + s.web.sendsLeft ≤ 3
  buffered_le : s.errC.length ≤ s.sends
  browser_quiet : s.browser.sendsLeft ≤ (if s.browser = .blocked then 1 else 0)

end suncoin

namespace suncoin

/-- The error an operation sends on `errC`, if it is a send. -/
def WorkerOp.sent : WorkerOp → Option Error
  | .send err => some err
  | _ => none

/-- How many interrupts the listeners have handled. -/
def Listener.handled : Listener → Nat
  | .listening => 0
  | .terminating => 1
  | .aborted => 2

end suncoin

namespace suncoin

/-- The state a sequence of actions leads to from the initial state (the initial state
itself when the sequence cannot happen). -/
def Sys.reached (c : Config) (acts : List Action) : Sys :=
  ((Sys.init c).run acts).getD (Sys.init c)

end suncoin

namespace suncoin

/-! The genesis distribution transaction of `suncoin.go`. -/

/-- The global `GenesisCoinVolume uint64 = 300e12`. -/
def GenesisCoinVolume : Nat := 300000000000000

/-- The global `AddrList`, the addresses for storage of coins. -/
def AddrList : List String := [
  "2JEc8JFzN2TGFy3wqeoe6eru3vwgq45sVSR",
  "2TvPvWdA4zvaqpcwTfPLkgHGQtDAzdqQCb7",
  "79xKvR3NQ7h4KD4vNt2PBLDtoKFDk1gG43",
  "27CnhwPzuZV6zVh5Pe6JmM8HeFu35z3Jw8K",
  "2M3pKMyx4NvfUFbWVvkT9Yv1STknFbL6VJp",
  "agGeGte7zwoCKbQPQkd8L5dTKL49uLHYua",
  "2GfRVqmmui6nddJkjjkjQ2fMbJFsWxezNV6",
  "2Xvd17c6tVoJRfQ4npZWGjcz1LYrsqdYGXx",
  "2Wgk1ghWPpD8NhZQi1ALbEKt8aNX9Np3Vim",
  "2RDA7WebLA6unbyezKSNUoQvMDZZZWdQuzH",
  "JSTLJ4FNxVwuhJdhBEvTVkwFWnqAhaDzic",
  "2bcCTbYxByGXNAYNfSAVA759qsCXD15XApt",
  "2UjMumrXD4r9CZKxPdBJwU4VHsVtMDB4Lv3",
  "jRDhoRhcpmRHjgcF6Emn7Yuj3mHRGzm262",
  "25T8PTJyLf6K4QisCZnv9J2EGLaramLt7fR",
  "TN5nFx6j5xoHj1jL5YZykaqeQ9UXKxyNC7",
  "rXLbAYaGehJwzja7Gqkc3NHBi9hUmrAFDR",
  "2S2Bfa4kvfauj2vWhhfbNRKwNLx5euxUBz5",
  "5C1nVed6c9zqfSWDoHu7fmsEyUVXpyX8Cy",
  "ZQ9QZRU1jGWRrXjGZWLdsZuqsQDa8BWWKo",
  "YQtJPhqx6sAAQY6ePnsV1FzJm3vM9HC9Tz",
  "2scTNQnfyZaDHPAhJxqMufYNa6pzzgmFJB",
  "B9Whv9d9TGYC7AHi9QJnANa1f2dY3Jny1r",
  "2EnSJzmbNdKNW8BBHavyTkVtyt6Y7j25ETd",
  "MdDzJg7RGqffo87XpmEVvFGPHAnpr9YmeS",
  "6Pc7ibaQ4CHQLH4HygrgRY9dMcGtRVoqSs",
  "2ZHRzCmZvdQV5R1Fi2c2STAo82VkHqgmvuc",
  "2Xay2CH2usdPYRDwoqQusMPxDEAuS76aAm2",
  "dtEeRybvCVVLeXqbmi4tzzzD5AMYFeeH9A",
  "2SpbEq7LzbEFvZFAFqR7fXBH9aibD2B6iQM",
  "CE5aNvp4qcBeHgaSyF5rFh9k6MamdyfHna",
  "2cEnxLn6h2ojHGC5TRS2BSSy7fgfFodi8dA",
  "WnW3cnehTBAsVDZ7nY8sNb2NM6NQabMPpe",
  "2hFKt4uBBpaT2Qt4QDuWi3cX3rAqQKKwtba",
  "6PxJUUfxZCGhMNueFCsPhGeCNHyXmCmPsd",
  "2atTZmiLmu8oxabcHUYFvQ9KcxMSAtxSKnu",
  "CRjdXLQb4CFbXxcEw2ER42Z95EJamjHkeB",
  "21TaWiWTCZBnC5Mhr8FFGkcg37jdjS12GPc",
  "27sZ4KJbJtbhgiBgtzsNknRc7H7h8YwDNq5",
  "w4MD35w8PTeexgQvbDPMpMf1UhZUVGkdhD",
  "A6FFCRPe7BvgE8oy7o5dhnuSVfSo8vtnkB",
  "2UawChW9sj9EEaVyimore9sbov3fRzif66k",
  "8Eb9dhfj6aTJf6os4M7zmaH1Gy95fmufUD",
  "2GW2zRVkxUkyGGxb4jXvA3TJVX13eS4AjTU",
  "FfsRWPhMRoSMmRFcmMb1knQiAC8RZDRNnA",
  "i5fkXenkrwfBhQUpMLYExJt4T8HYm5Swor",
  "2Q2FJJKULZHjbYdP8Nx5C4cBpoX8nw2gh4a",
  "2PWe6GiM3oKExhXsPHSbwnf3A5fffMKPEE7",
  "nP3BsoFkpbQgYHtp8onsQTFh32VkFQWibB",
  "w2xGLPgGgyTkSVnRgXhyiGpugxCFyMAFpc",
  "2BR9QGdm5hMxRkr4C5M21DXjWvxB26WjHeX",
  "Nnw5SgEKuUmsHGWBSzashbf5D98AUouXUh",
  "YVj3NEsacjsM67iPfyMY59vPuecwnp6QWz",
  "25Dvmd5uBvmZNsTRVDEBsQ6JRVpqqe7gDNe",
  "22oySh75yDv9vtBYHqgfYydEV8atTBwAnpp",
  "3Lrz2bDGcT7DprDeMJZ2guEyivAJ2phvtG",
  "td595rUgWWzMsZcudMnTVYiW6BRvaghPKw",
  "2ADzbt8F186254xMG6DvyMCfbsXdeiLA2qn",
  "NCpnHjMN9ta94SzJLZoFqCq9jpNqsHmeRh",
  "2JkBfkkvypKCsJYRVgMHwuTupf5u6j21onr",
  "2AgYKqcGFru1pkFbheNUzWkvKUKjY859AEJ",
  "2fJ7F7vviEWVRFBRKHGQVN59YiSKS2KPg5X",
  "2HnBLgUiZ3s843ik9RqgnArSNPXdagP99M1",
  "7wGF8xvTyVuKMAEsUWzbNqrmEwp56PoMcG",
  "2HzvsMgGU7Pg3pkg13AFAmt93cw2gEWiPc8",
  "2MURz4XbBRKriEL9UV8ixxZA837Hmpgtaqc",
  "2F3cbdN2tf1nKS6h5nfzUeMnoj7uRkjLy8e",
  "t4hvfvVChVk6qVajCnoqTTGNP4FTftJytu",
  "2bJsY7zjFH6iq6Fs1fnyX2LpzB6rPXVPWXC",
  "2R3MVa4AeY3UoZF2nubYDuxTesU91kiD2jd",
  "joVSFdo4CaA19Y2jbJJZ5BJyitZqBnmX9M",
  "Rw68wydU8cE33YLnNYq2eDksARfChZYFEp",
  "dDuYLwRQ1yvt9iQetEKrUGhPivAxB9n5M1",
  "2jWneyxn84PByzXMRTE3hnCJtNxBEYC2ufv",
  "D9KZjrFN2etU2SHFBA2G7jDSddh6ZCy26M",
  "b8KG4qRuxkHt29mpP5LNUuwQwBZhUG6RJB",
  "2LfmBFMFAsNf2ZDyNEwoH8RWNHmxSbQvqSb",
  "ruKpSMdayPGyFtYG9EH2QTpcrmTvF4EjAV",
  "2iej2x3fEk4sraSXeShVu65KH2NUAvJFg9N",
  "qcu4nqYcX5rGC3EmoXU8q22vDcPUMpPYXY",
  "2YhrGpKUWXfHrtW6c9FKVKqYrxVHVBXGind",
  "2H5mmwbibJz9KxpwRAuZ4ezvTSDL8iNUQGH",
  "zeh9v9afW7a3Ji5e7SGdzb3Sk2xajTXUMf",
  "xV3XQzAR86Y6r7qA49BsFcLxpQ4xhtASq7",
  "EtNKuCeca61htJigtYuove3Yb6H2Scpitk",
  "kfzfkb7TBQLGaBSN4ssjyfMNfscYjdYcy5",
  "27AKWwt4pxtixUM9PAG4J1at7w8oBivJms5",
  "2F5HzZU4RNYZbjmbCCXbDAsHAcqmAMZkpkp",
  "bnEUiH3HVq95pySibLRxHrTLgxQJhsTgRi",
  "7n9m5HZrVDVCNmVYirkG6WB18fHRnF3ZwK",
  "2GpNJcvfoBLTd21oVFvGmvyshmu5GjUDNgA",
  "2LM8uSr35BvyXNihhzTdSNasbYVX4yEGuUi",
  "zhixmLqy3fYcRUAMZZZuABtwVnxwfXriV3",
  "9n5yUAhSwbGZMMhC7KFNCjZnqC918tnjoY",
  "2m6PiUioXSQKAQCqVj7T5fzrVMAi5DX8tU5",
  "2EvQ2MwPeqXqaHs9qRFzWAoByz4ph64jSKU",
  "KR6sPjZvE2KfpAEpmMCdqAvCrtASpNADHK",
  "rk973tk7wCJsRU9ExFHBKuPgvLeehjjRMy",
  "PLUcUcFNSnK2rXoP2Fd5ugqGCMzn1ksfM1",
  "KZULDtdtgSqhUzvVJLBhscFaXGHdVHZ9TU"
]

/-- The type `cipher.SHA256`, by its hexadecimal form. -/
abbrev SHA256 := String

/-- The type `cipher.Sig`, by its hexadecimal form. -/
abbrev Sig := String

/-- The type `coin.TransactionOutput`; `α` is the type `cipher.Address`. -/
structure TransactionOutput (α : Type) where
  Address : α
  Coins : Nat
  Hours : Nat

/-- The type `coin.Transaction`; its field `Type` is `Typ` here. -/
structure Transaction (α : Type) where
  Length : Nat
  Typ : Nat
  InnerHash : SHA256
  Sigs : List Sig
  In : List SHA256
  Out : List (TransactionOutput α)

/-- The zero value of `coin.Transaction`, as declared by `var tx coin.Transaction`. -/
def Transaction.zero {α : Type} : Transaction α :=
  { Length := 0, Typ := 0, InnerHash := "", Sigs := [], In := [], Out := [] }

/-- The functions of the vendored packages `cipher` and `coin` that `InitTransaction`
calls; their code is not part of the sources at hand, so they are parameters. A `Must`
function returns `none` when it panics; `Verify` returns the error (`none` is `nil`). -/
structure Vendored (α : Type) where
  MustSHA256FromHex : String → Option SHA256
  MustDecodeBase58Address : String → Option α
  MustSigFromHex : String → Option Sig
  PushInput : Transaction α → SHA256 → Transaction α
  PushOutput : Transaction α → α → Nat → Nat → Transaction α
  UpdateHeader : Transaction α → Transaction α
  Verify : Transaction α → Option Error

/-- What is assumed of the vendored transaction functions: `PushOutput` appends one
output with the address, coins and hours it is given, and `PushInput` and
`UpdateHeader` leave the outputs alone. -/
structure Vendored.Sound {α : Type} (lib : Vendored α) : Prop where
  pushOutput : ∀ tx a coins hours,
    (lib.PushOutput tx a coins hours).Out = tx.Out ++ [⟨a, coins, hours⟩]
  pushInput : ∀ tx x, (lib.PushInput tx x).Out = tx.Out
  updateHeader : ∀ tx, (lib.UpdateHeader tx).Out = tx.Out

/-- One round of the loop of `InitTransaction`: decode `AddrList[i]` and push an output
of `3e12` coins and 1 hour to it. An index out of range or a failed decoding panics. -/
def InitTransaction.round {α : Type} (lib : Vendored α) (tx : Transaction α) (i : Nat) :
    Option (Transaction α) := do
  let a ← AddrList[i]?
  let addr ← lib.MustDecodeBase58Address a
  pure (lib.PushOutput tx addr 3000000000000 1)

/-- The hexadecimal hash of the output spent by the transaction of `InitTransaction`. -/
def InitTransaction.outputHex : String :=
  "7c2f4421e420e77380791488772f177362e5c6fb61bb46612bbe21b5eabc3050"

/-- The hexadecimal signature `sig` of `InitTransaction`. -/
def InitTransaction.sigHex : String :=
  "f1f3342332af4b773513008079772b12feabe40dd7a81ee0b3449f8609995d8b55c9c8436921bcbf31fd6c485017c1ef6e251070bd93033abd7ea3825813bb8e00"

/-- Go `InitTransaction`; `none` when it panics. -/
def InitTransaction {α : Type} (lib : Vendored α) : Option (Transaction α) := do
  let tx : Transaction α := Transaction.zero
  let output ← lib.MustSHA256FromHex InitTransaction.outputHex
  let tx := lib.PushInput tx output
  let tx ← (List.range 100).foldlM (InitTransaction.round lib) tx
  let sig ← lib.MustSigFromHex InitTransaction.sigHex
  let txs := (List.replicate 1 ("" : Sig)).set 0 sig
  let tx := { tx with Sigs := txs }
  let tx := lib.UpdateHeader tx
  match lib.Verify tx with
  | some _ => none
  | none => some tx

/-- Vendored functions that never panic, accept every transaction and do no more than
store what they are given. -/
def Vendored.plain : Vendored String where
  MustSHA256FromHex := fun s => some s
  MustDecodeBase58Address := fun s => some s
  MustSigFromHex := fun s => some s
  PushInput := fun tx x => { tx with In := tx.In ++ [x] }
  PushOutput := fun tx a coins hours => { tx with Out := tx.Out ++ [⟨a, coins, hours⟩] }
  UpdateHeader := fun tx => tx
  Verify := fun _ => none

end suncoin

namespace visor

/-! ### The copy loop -/

theorem assign_append_drop (pre addrs : List String) (n : Nat) (v : String)
    (hpre : pre.length = n) (hn : n < addrs.length) :
    assign (pre ++ addrs.drop n) n v = some ((pre ++ [v]) ++ addrs.drop (n + 1)) := by
  have hlen : n < (pre ++ addrs.drop n).length := by
    simp only [List.length_append, List.length_drop]; omega
  unfold assign
  rw [if_pos hlen]
  congr 1
  subst hpre
  rw [List.set_append_right _ _ (le_refl _)]
  simp only [Nat.sub_self, List.append_assoc, List.singleton_append]
  congr 1
  rw [List.drop_eq_getElem_cons hn, List.set_cons_zero]

theorem copyLoop_eq (table : List String) (off : Nat) :
    ∀ (n : Nat) (addrs : List String), n ≤ addrs.length → off + n ≤ table.length →
      copyLoop table off n addrs = some ((table.drop off).take n ++ addrs.drop n) := by
  intro n
  induction n with
  | zero => intro addrs _ _; simp [copyLoop]
  | succ n ih =>
    intro addrs hn hoff
    have hprev := ih addrs (by omega) (by omega)
    unfold copyLoop at hprev ⊢
    rw [List.range_succ, List.foldlM_append, hprev]
    have hidx : off + n < table.length := by omega
    have hget : table[off + n]? = some (table[off + n]) := List.getElem?_eq_getElem hidx
    simp only [Option.bind_eq_bind, Option.some_bind, List.foldlM_cons, List.foldlM_nil, hget]
    have hpre : ((table.drop off).take n).length = n := by
      simp only [List.length_take, List.length_drop]; omega
    rw [assign_append_drop _ addrs n _ hpre (by omega)]
    simp only [Option.some_bind, Option.pure_def]
    congr 2
    have hd : n < (table.drop off).length := by simp only [List.length_drop]; omega
    rw [List.take_succ, List.getElem?_eq_getElem hd]
    simp

theorem copyLoop_full (table : List String) (off n : Nat) (h : off + n ≤ table.length) :
    copyLoop table off n (makeStrings n) = some ((table.drop off).take n) := by
  rw [copyLoop_eq table off n (makeStrings n) (by simp [makeStrings]) h]
  simp [makeStrings]

theorem GetDistributionAddresses_eq (k : Constants) :
    GetDistributionAddresses k = some k.distributionAddresses := by
  unfold GetDistributionAddresses
  simp only []
  rw [copyLoop_full _ 0 _ (by omega)]
  simp

theorem GetUnlockedDistributionAddresses_eq (k : Constants)
    (h : k.InitialUnlockedCount ≤ k.distributionAddresses.length) :
    GetUnlockedDistributionAddresses k =
      some (k.distributionAddresses.take k.InitialUnlockedCount) := by
  unfold GetUnlockedDistributionAddresses sliceOf
  simp only [Nat.zero_le, true_and, h, if_true, Option.bind_eq_bind, Option.some_bind,
    List.drop_zero, List.length_take, min_eq_left h]
  rw [copyLoop_full _ 0 _ (by omega)]
  simp

theorem GetLockedDistributionAddresses_eq (k : Constants)
    (hlen : k.distributionAddresses.length = k.DistributionAddressesTotal)
    (h : k.InitialUnlockedCount ≤ k.DistributionAddressesTotal) :
    GetLockedDistributionAddresses k =
      some (k.distributionAddresses.drop k.InitialUnlockedCount) := by
  unfold GetLockedDistributionAddresses subU64 sliceOf
  have h2 : k.InitialUnlockedCount ≤ k.distributionAddresses.length := by omega
  simp only [h, h2, if_true, Option.bind_eq_bind, Option.some_bind, le_refl, and_self,
    List.take_length, List.length_drop]
  rw [hlen, copyLoop_full _ _ _ (by omega)]
  congr 1
  apply List.take_of_length_le
  simp only [List.length_drop]; omega

end visor

namespace visor

/-! ### The lookup set and the spend loop -/

theorem StringSet.mem_insert (m : StringSet) (a b : String) :
    b ∈ (m.insert a).keys ↔ b = a ∨ b ∈ m.keys := by
  unfold StringSet.insert
  by_cases h : m.keys.contains a = true
  · rw [if_pos h]
    have ha : a ∈ m.keys := by simpa using h
    constructor
    · intro hb; exact Or.inr hb
    · rintro (rfl | hb)
      · exact ha
      · exact hb
  · rw [if_neg h]; simp

theorem StringSet.mem_foldl_insert (xs : List String) :
    ∀ (m : StringSet) (b : String),
      b ∈ (xs.foldl (fun m a => m.insert a) m).keys ↔ b ∈ m.keys ∨ b ∈ xs := by
  induction xs with
  | nil => intro m b; simp
  | cons x xs ih =>
    intro m b
    rw [List.foldl_cons, ih, StringSet.mem_insert]
    simp only [List.mem_cons]
    tauto

theorem StringSet.lookup_iff (m : StringSet) (a : String) :
    m.lookup a = true ↔ a ∈ m.keys := by
  unfold StringSet.lookup; simp

theorem spendsLocked_iff {α : Type} (addrString : α → String) (m : StringSet)
    (inUxs : List (UxOut α)) :
    spendsLocked addrString m inUxs = true ↔
      ∃ o ∈ inUxs, addrString o.Body.Address ∈ m.keys := by
  induction inUxs with
  | nil => simp [spendsLocked]
  | cons o rest ih =>
    by_cases h : m.lookup (addrString o.Body.Address) = true
    · have hm := (StringSet.lookup_iff _ _).1 h
      simp only [spendsLocked, h, if_true, List.mem_cons, true_iff]
      exact ⟨o, Or.inl rfl, hm⟩
    · have h2 : ¬ addrString o.Body.Address ∈ m.keys :=
        fun hm => h ((StringSet.lookup_iff _ _).2 hm)
      have h3 : spendsLocked addrString m (o :: rest) = spendsLocked addrString m rest := by
        simp only [spendsLocked, h, if_false, Bool.false_eq_true]
      rw [h3, ih]
      constructor
      · rintro ⟨x, hx, hxm⟩; exact ⟨x, List.mem_cons_of_mem _ hx, hxm⟩
      · rintro ⟨x, hx, hxm⟩
        rcases List.mem_cons.1 hx with hx | hx
        · subst hx; exact absurd hxm h2
        · exact ⟨x, hx, hxm⟩

theorem TransactionIsLocked_eq {α : Type} (k : Constants) (addrString : α → String)
    (locked : List String) (h : GetLockedDistributionAddresses k = some locked)
    (inUxs : List (UxOut α)) :
    TransactionIsLocked k addrString inUxs =
      some (decide (∃ o ∈ inUxs, addrString o.Body.Address ∈ locked)) := by
  unfold TransactionIsLocked
  rw [h]
  simp only [Option.bind_eq_bind, Option.some_bind, Option.pure_def, Option.some.injEq]
  rw [Bool.eq_iff_iff, spendsLocked_iff]
  simp only [StringSet.mem_foldl_insert, StringSet.empty, List.not_mem_nil, false_or,
    decide_eq_true_eq]

theorem distributionAddresses_nodup : distributionAddresses.Nodup := by decide

theorem distributionAddresses_length : distributionAddresses.length = 100 := by decide

end visor

namespace visor

/-! ### Emission lock policy: the claims -/

theorem shippedWith_unlocked (n : Nat) (hn : n ≤ 100) :
    GetUnlockedDistributionAddresses (shippedWith n) = some (distributionAddresses.take n) :=
  GetUnlockedDistributionAddresses_eq (shippedWith n)
    (by show n ≤ distributionAddresses.length; rw [distributionAddresses_length]; exact hn)

theorem shippedWith_locked (n : Nat) (hn : n ≤ 100) :
    GetLockedDistributionAddresses (shippedWith n) = some (distributionAddresses.drop n) :=
  GetLockedDistributionAddresses_eq (shippedWith n) distributionAddresses_length hn

theorem take_drop_partition (n : Nat) (a : String) (ha : a ∈ distributionAddresses) :
    (a ∈ distributionAddresses.take n ∧ a ∉ distributionAddresses.drop n) ∨
    (a ∉ distributionAddresses.take n ∧ a ∈ distributionAddresses.drop n) := by
  have hnd : (distributionAddresses.take n ++ distributionAddresses.drop n).Nodup := by
    rw [List.take_append_drop]; exact distributionAddresses_nodup
  have hdis := (List.nodup_append.1 hnd).2.2
  rw [← List.take_append_drop n distributionAddresses, List.mem_append] at ha
  rcases ha with h | h
  · exact Or.inl ⟨h, fun h2 => hdis h h2⟩
  · exact Or.inr ⟨fun h2 => hdis h2 h, h⟩

/-- C1: for every sequence of spent outputs, `TransactionIsLocked` returns true exactly
when some output of the sequence has an address whose string form is an element of the
list returned by `GetLockedDistributionAddresses`, returns false exactly when no output
has, and in particular returns false for the empty sequence. -/
theorem TransactionIsLocked_iff_spends_locked {α : Type} (k : Constants)
    (addrString : α → String) (locked : List String)
    (h : GetLockedDistributionAddresses k = some locked) (inUxs : List (UxOut α)) :
    (TransactionIsLocked k addrString inUxs = some true ↔
      ∃ o ∈ inUxs, addrString o.Body.Address ∈ locked) ∧
    (TransactionIsLocked k addrString inUxs = some false ↔
      ¬ ∃ o ∈ inUxs, addrString o.Body.Address ∈ locked) ∧
    TransactionIsLocked k addrString [] = some false := by
  refine ⟨?_, ?_, ?_⟩
  · rw [TransactionIsLocked_eq k addrString locked h]
    simp only [Option.some.injEq, decide_eq_true_eq]
  · rw [TransactionIsLocked_eq k addrString locked h]
    simp only [Option.some.injEq, decide_eq_false_iff_not]
  · rw [TransactionIsLocked_eq k addrString locked h]
    simp

theorem TransactionIsLocked_iff_spends_locked_witness :
    GetLockedDistributionAddresses shipped = some (distributionAddresses.drop 1) ∧
    ((TransactionIsLocked shipped id
        [(⟨⟨"2EvQ2MwPeqXqaHs9qRFzWAoByz4ph64jSKU", 1, 0⟩⟩ : UxOut String),
         ⟨⟨"2BR9QGdm5hMxRkr4C5M21DXjWvxB26WjHeX", 1, 0⟩⟩] = some true ↔
      ∃ o ∈ [(⟨⟨"2EvQ2MwPeqXqaHs9qRFzWAoByz4ph64jSKU", 1, 0⟩⟩ : UxOut String),
         ⟨⟨"2BR9QGdm5hMxRkr4C5M21DXjWvxB26WjHeX", 1, 0⟩⟩],
        id o.Body.Address ∈ distributionAddresses.drop 1) ∧
    (TransactionIsLocked shipped id
        [(⟨⟨"2EvQ2MwPeqXqaHs9qRFzWAoByz4ph64jSKU", 1, 0⟩⟩ : UxOut String),
         ⟨⟨"2BR9QGdm5hMxRkr4C5M21DXjWvxB26WjHeX", 1, 0⟩⟩] = some false ↔
      ¬ ∃ o ∈ [(⟨⟨"2EvQ2MwPeqXqaHs9qRFzWAoByz4ph64jSKU", 1, 0⟩⟩ : UxOut String),
         ⟨⟨"2BR9QGdm5hMxRkr4C5M21DXjWvxB26WjHeX", 1, 0⟩⟩],
        id o.Body.Address ∈ distributionAddresses.drop 1) ∧
    TransactionIsLocked shipped (id : String → String) [] = some false) :=
  ⟨shippedWith_locked 1 (by decide),
   TransactionIsLocked_iff_spends_locked shipped id _ (shippedWith_locked 1 (by decide)) _⟩

/-- C2: for `InitialUnlockedCount` in 0, 1 and `DistributionAddressesTotal`, the three
getters return, and the unlocked list followed by the locked list is the full table
returned by `GetDistributionAddresses`: every table entry is in exactly one of the two
lists, none is in both, none is omitted and nothing else is returned. -/
theorem unlocked_append_locked_eq_table (n : Nat)
    (hn : n = 0 ∨ n = 1 ∨ n = shipped.DistributionAddressesTotal) :
    ∃ u l all,
      GetUnlockedDistributionAddresses (shippedWith n) = some u ∧
      GetLockedDistributionAddresses (shippedWith n) = some l ∧
      GetDistributionAddresses (shippedWith n) = some all ∧
      all = distributionAddresses ∧
      u ++ l = all ∧
      (∀ a ∈ all, (a ∈ u ∧ a ∉ l) ∨ (a ∉ u ∧ a ∈ l)) ∧
      (∀ a, a ∈ u ∨ a ∈ l → a ∈ all) := by
  have hle : n ≤ 100 := by
    rcases hn with h | h | h
    · omega
    · omega
    · rw [h]; exact le_refl _
  refine ⟨distributionAddresses.take n, distributionAddresses.drop n, distributionAddresses,
    shippedWith_unlocked n hle, shippedWith_locked n hle,
    GetDistributionAddresses_eq (shippedWith n), rfl, List.take_append_drop n _,
    fun a ha => take_drop_partition n a ha, ?_⟩
  rintro a (h | h)
  · exact List.mem_of_mem_take h
  · exact List.mem_of_mem_drop h

theorem unlocked_append_locked_eq_table_witness :
    (1 = 0 ∨ 1 = 1 ∨ 1 = shipped.DistributionAddressesTotal) ∧
    ∃ u l all,
      GetUnlockedDistributionAddresses (shippedWith 1) = some u ∧
      GetLockedDistributionAddresses (shippedWith 1) = some l ∧
      GetDistributionAddresses (shippedWith 1) = some all ∧
      all = distributionAddresses ∧
      u ++ l = all ∧
      (∀ a ∈ all, (a ∈ u ∧ a ∉ l) ∨ (a ∉ u ∧ a ∈ l)) ∧
      (∀ a, a ∈ u ∨ a ∈ l → a ∈ all) :=
  ⟨by decide, unlocked_append_locked_eq_table 1 (by decide)⟩

/-- C3: when the table has `DistributionAddressesTotal` entries and
`InitialUnlockedCount` is at most `DistributionAddressesTotal`,
`GetLockedDistributionAddresses` returns (no underflow, no index out of range) the table
with its first `InitialUnlockedCount` entries removed, in table order: the length of the
result is `DistributionAddressesTotal - InitialUnlockedCount` and its element `i` is the
table entry `InitialUnlockedCount + i` for every `i` below that length. -/
theorem GetLockedDistributionAddresses_spec (k : Constants)
    (hlen : k.distributionAddresses.length = k.DistributionAddressesTotal)
    (h : k.InitialUnlockedCount ≤ k.DistributionAddressesTotal) :
    ∃ l, GetLockedDistributionAddresses k = some l ∧
      l = k.distributionAddresses.drop k.InitialUnlockedCount ∧
      l.length = k.DistributionAddressesTotal - k.InitialUnlockedCount ∧
      ∀ i, i < k.DistributionAddressesTotal - k.InitialUnlockedCount →
        ∃ a, l[i]? = some a ∧ k.distributionAddresses[k.InitialUnlockedCount + i]? = some a := by
  refine ⟨_, GetLockedDistributionAddresses_eq k hlen h, rfl, ?_, ?_⟩
  · rw [List.length_drop, hlen]
  · intro i hi
    have hidx : k.InitialUnlockedCount + i < k.distributionAddresses.length := by omega
    refine ⟨k.distributionAddresses[k.InitialUnlockedCount + i], ?_, ?_⟩
    · rw [List.getElem?_drop]; exact List.getElem?_eq_getElem hidx
    · exact List.getElem?_eq_getElem hidx

theorem GetLockedDistributionAddresses_spec_witness :
    shipped.distributionAddresses.length = shipped.DistributionAddressesTotal ∧
    shipped.InitialUnlockedCount ≤ shipped.DistributionAddressesTotal ∧
    ∃ l, GetLockedDistributionAddresses shipped = some l ∧
      l = shipped.distributionAddresses.drop shipped.InitialUnlockedCount ∧
      l.length = shipped.DistributionAddressesTotal - shipped.InitialUnlockedCount ∧
      ∀ i, i < shipped.DistributionAddressesTotal - shipped.InitialUnlockedCount →
        ∃ a, l[i]? = some a ∧
          shipped.distributionAddresses[shipped.InitialUnlockedCount + i]? = some a :=
  ⟨by decide, by decide, GetLockedDistributionAddresses_spec shipped (by decide) (by decide)⟩

/-- C4: when the table has `DistributionAddressesTotal` entries and
`InitialUnlockedCount` is at most `DistributionAddressesTotal`,
`GetUnlockedDistributionAddresses` returns the first `InitialUnlockedCount` entries of
the table, in table order: the length of the result is `InitialUnlockedCount` and its
element `i` is the table entry `i` for every `i` below `InitialUnlockedCount`. -/
theorem GetUnlockedDistributionAddresses_spec (k : Constants)
    (hlen : k.distributionAddresses.length = k.DistributionAddressesTotal)
    (h : k.InitialUnlockedCount ≤ k.DistributionAddressesTotal) :
    ∃ u, GetUnlockedDistributionAddresses k = some u ∧
      u = k.distributionAddresses.take k.InitialUnlockedCount ∧
      u.length = k.InitialUnlockedCount ∧
      ∀ i, i < k.InitialUnlockedCount →
        ∃ a, u[i]? = some a ∧ k.distributionAddresses[i]? = some a := by
  have h2 : k.InitialUnlockedCount ≤ k.distributionAddresses.length := by omega
  refine ⟨_, GetUnlockedDistributionAddresses_eq k h2, rfl, ?_, ?_⟩
  · rw [List.length_take]; omega
  · intro i hi
    have hidx : i < k.distributionAddresses.length := by omega
    refine ⟨k.distributionAddresses[i], ?_, List.getElem?_eq_getElem hidx⟩
    rw [List.getElem?_take_of_lt hi]; exact List.getElem?_eq_getElem hidx

theorem GetUnlockedDistributionAddresses_spec_witness :
    shipped.distributionAddresses.length = shipped.DistributionAddressesTotal ∧
    shipped.InitialUnlockedCount ≤ shipped.DistributionAddressesTotal ∧
    ∃ u, GetUnlockedDistributionAddresses shipped = some u ∧
      u = shipped.distributionAddresses.take shipped.InitialUnlockedCount ∧
      u.length = shipped.InitialUnlockedCount ∧
      ∀ i, i < shipped.InitialUnlockedCount →
        ∃ a, u[i]? = some a ∧ shipped.distributionAddresses[i]? = some a :=
  ⟨by decide, by decide, GetUnlockedDistributionAddresses_spec shipped (by decide) (by decide)⟩

end visor

namespace visor

/-- C5: for every value of `InitialUnlockedCount` that is at least 1, a transaction whose
single spent output is addressed to table position `InitialUnlockedCount` (the first
locked address) is locked, and a transaction whose single spent output is addressed to
table position `InitialUnlockedCount - 1` (the last unlocked address) is not. -/
theorem TransactionIsLocked_at_boundary {α : Type} (addrString : α → String) (n : Nat)
    (firstLocked lastUnlocked : UxOut α) (h1 : 1 ≤ n)
    (hfirst : distributionAddresses[n]? = some (addrString firstLocked.Body.Address))
    (hlast : distributionAddresses[n - 1]? = some (addrString lastUnlocked.Body.Address)) :
    TransactionIsLocked (shippedWith n) addrString [firstLocked] = some true ∧
    TransactionIsLocked (shippedWith n) addrString [lastUnlocked] = some false := by
  have hn : n < distributionAddresses.length := by
    by_contra hc
    rw [List.getElem?_eq_none (by omega)] at hfirst
    cases hfirst
  have hle : n ≤ 100 := by rw [distributionAddresses_length] at hn; omega
  have hl := shippedWith_locked n hle
  constructor
  · rw [TransactionIsLocked_eq _ addrString _ hl]
    simp only [List.mem_singleton, exists_eq_left, Option.some.injEq, decide_eq_true_eq]
    rw [List.mem_iff_getElem?]
    exact ⟨0, by rw [List.getElem?_drop]; exact hfirst⟩
  · rw [TransactionIsLocked_eq _ addrString _ hl]
    simp only [List.mem_singleton, exists_eq_left, Option.some.injEq, decide_eq_false_iff_not]
    have hmem : addrString lastUnlocked.Body.Address ∈ distributionAddresses :=
      List.mem_iff_getElem?.2 ⟨n - 1, hlast⟩
    have htake : addrString lastUnlocked.Body.Address ∈ distributionAddresses.take n := by
      rw [List.mem_iff_getElem?]
      exact ⟨n - 1, by rw [List.getElem?_take_of_lt (by omega)]; exact hlast⟩
    rcases take_drop_partition n _ hmem with h | h
    · exact h.2
    · exact absurd htake h.1

theorem TransactionIsLocked_at_boundary_witness :
    1 ≤ 1 ∧
    distributionAddresses[1]? = some (id
      (⟨⟨"2BR9QGdm5hMxRkr4C5M21DXjWvxB26WjHeX", 3000000000000, 0⟩⟩ : UxOut String).Body.Address) ∧
    distributionAddresses[1 - 1]? = some (id
      (⟨⟨"2EvQ2MwPeqXqaHs9qRFzWAoByz4ph64jSKU", 3000000000000, 0⟩⟩ : UxOut String).Body.Address) ∧
    TransactionIsLocked (shippedWith 1) id
      [(⟨⟨"2BR9QGdm5hMxRkr4C5M21DXjWvxB26WjHeX", 3000000000000, 0⟩⟩ : UxOut String)] =
        some true ∧
    TransactionIsLocked (shippedWith 1) id
      [(⟨⟨"2EvQ2MwPeqXqaHs9qRFzWAoByz4ph64jSKU", 3000000000000, 0⟩⟩ : UxOut String)] =
        some false :=
  ⟨by decide, by decide, by decide,
    TransactionIsLocked_at_boundary id 1 _ _ (by decide) (by decide) (by decide)⟩

/-- C6: with `MaxCoinSupply` 300,000,000 and `DistributionAddressesTotal` 100,
`DistributionAddressInitialBalance` is exactly 3,000,000: the division leaves no
remainder, the quotient times the total gives back the supply, and neither the supply
nor the quotient overflows 64 bits. -/
theorem DistributionAddressInitialBalance_eq (k : Constants)
    (hmax : k.MaxCoinSupply = 300000000) (htotal : k.DistributionAddressesTotal = 100) :
    DistributionAddressInitialBalance k = 3000000 ∧
    k.MaxCoinSupply % k.DistributionAddressesTotal = 0 ∧
    DistributionAddressInitialBalance k * k.DistributionAddressesTotal = k.MaxCoinSupply ∧
    k.MaxCoinSupply < 2 ^ 64 ∧
    k.MaxCoinSupply / k.DistributionAddressesTotal < 2 ^ 64 := by
  unfold DistributionAddressInitialBalance
  rw [hmax, htotal]
  decide

theorem DistributionAddressInitialBalance_eq_witness :
    shipped.MaxCoinSupply = 300000000 ∧ shipped.DistributionAddressesTotal = 100 ∧
    DistributionAddressInitialBalance shipped = 3000000 ∧
    shipped.MaxCoinSupply % shipped.DistributionAddressesTotal = 0 ∧
    DistributionAddressInitialBalance shipped * shipped.DistributionAddressesTotal =
      shipped.MaxCoinSupply ∧
    shipped.MaxCoinSupply < 2 ^ 64 ∧
    shipped.MaxCoinSupply / shipped.DistributionAddressesTotal < 2 ^ 64 :=
  ⟨rfl, rfl, DistributionAddressInitialBalance_eq shipped rfl rfl⟩

/-- C7: for a non-zero `DistributionAddressesTotal`, the package `init` panics exactly
when `MaxCoinSupply mod DistributionAddressesTotal` is not 0 and returns normally
exactly when it is 0; so it panics for every total that does not divide the supply,
and it returns normally for the shipped constants (300,000,000 and 100). -/
theorem init_panics_iff (k : Constants) (_h : 0 < k.DistributionAddressesTotal) :
    ((∃ msg, init k = .error msg) ↔ k.MaxCoinSupply % k.DistributionAddressesTotal ≠ 0) ∧
    (init k = .ok () ↔ k.MaxCoinSupply % k.DistributionAddressesTotal = 0) ∧
    (¬ k.DistributionAddressesTotal ∣ k.MaxCoinSupply → ∃ msg, init k = .error msg) ∧
    init shipped = .ok () := by
  have hiff : (∃ msg, init k = .error msg) ↔
      k.MaxCoinSupply % k.DistributionAddressesTotal ≠ 0 := by
    unfold init
    by_cases hm : k.MaxCoinSupply % k.DistributionAddressesTotal = 0
    · simp [hm]
    · simp [hm]
  refine ⟨hiff, ?_, ?_, rfl⟩
  · unfold init
    by_cases hm : k.MaxCoinSupply % k.DistributionAddressesTotal = 0
    · simp [hm]
    · simp [hm]
  · intro hd
    exact hiff.2 (fun hm => hd (Nat.dvd_of_mod_eq_zero hm))

theorem init_panics_iff_witness :
    0 < (sevenAddresses).DistributionAddressesTotal ∧
    (((∃ msg, init sevenAddresses = .error msg) ↔
      sevenAddresses.MaxCoinSupply % sevenAddresses.DistributionAddressesTotal ≠ 0) ∧
    (init sevenAddresses = .ok () ↔
      sevenAddresses.MaxCoinSupply % sevenAddresses.DistributionAddressesTotal = 0) ∧
    (¬ sevenAddresses.DistributionAddressesTotal ∣ sevenAddresses.MaxCoinSupply →
      ∃ msg, init sevenAddresses = .error msg) ∧
    init shipped = .ok ()) :=
  ⟨by decide, init_panics_iff sevenAddresses (by decide)⟩

end visor

namespace suncoin

/-! ### The node supervisor -/

theorem Step.bind_next {α β : Type} (x : Step α) (f : α → Step β) :
    (x >>= f).next = x.next.bind fun a => (f a).next := by
  show (Step.bind x f).next = _
  unfold Step.bind; cases x.next <;> rfl

theorem Step.bind_events {α β : Type} (x : Step α) (f : α → Step β) :
    (x >>= f).events =
      x.events ++ (match x.next with | none => [] | some a => (f a).events) := by
  show (Step.bind x f).events = _
  unfold Step.bind; cases x.next <;> simp

theorem calls_append (s t : List Event) : calls (s ++ t) = (calls s).append (calls t) := by
  simp [calls, Calls.append, constructed, started, shutdowns, closing, List.filterMap_append]

theorem Calls.nil_append (a : Calls) : Calls.append ⟨[], [], [], []⟩ a = a := by
  cases a; rfl

theorem Calls.append_nil (a : Calls) : Calls.append a ⟨[], [], [], []⟩ = a := by
  cases a; simp [Calls.append]

theorem initProfiling_calls (w : World) (a b : Bool) :
    calls (initProfiling w a b).events = ⟨[], [], [], []⟩ := by
  rcases w with ⟨b1, b2, b3, b4, b5, b6, b7, b8, b9, b10, b11⟩
  cases a <;> cases b <;> cases b1 <;> rfl

theorem initProfiling_next (w : World) (a b : Bool) :
    (initProfiling w a b).next = if b = true ∧ w.osCreate ≠ none then none else some () := by
  rcases w with ⟨b1, b2, b3, b4, b5, b6, b7, b8, b9, b10, b11⟩
  cases a <;> cases b <;> cases b1 <;> rfl

theorem prologue_calls (c : Config) (w : World) :
    calls (Run.prologue c w).events = ⟨[], [], [], []⟩ := by
  rcases c with ⟨a1, a2, a3, a4, a5, a6, a7, s⟩
  rcases w with ⟨b1, b2, b3, b4, b5, b6, b7, b8, b9, b10, b11⟩
  cases a5 <;> cases a6 <;> cases a7 <;> cases b1 <;> cases b2 <;> rfl

theorem prologue_next (c : Config) (w : World) :
    (Run.prologue c w).next =
      if (c.ProfileCPU = true → w.osCreate = none) ∧ w.initLogging = none then some ()
      else none := by
  rcases c with ⟨a1, a2, a3, a4, a5, a6, a7, s⟩
  rcases w with ⟨b1, b2, b3, b4, b5, b6, b7, b8, b9, b10, b11⟩
  cases a5 <;> cases a6 <;> cases a7 <;> cases b1 <;> cases b2 <;> rfl

theorem listeners_calls : calls Run.listeners.events = ⟨[], [], [], []⟩ := rfl

theorem listeners_next : Run.listeners.next = some () := rfl

theorem openDB_calls (w : World) : calls (Run.openDB w).events = ⟨[], [], [], []⟩ := by
  rcases w with ⟨b1, b2, b3, b4, b5, b6, b7, b8, b9, b10, b11⟩
  cases b3 <;> rfl

theorem openDB_next (w : World) :
    (Run.openDB w).next = if w.OpenDB = none then some () else none := by
  rcases w with ⟨b1, b2, b3, b4, b5, b6, b7, b8, b9, b10, b11⟩
  cases b3 <;> rfl

theorem newDaemon_calls (w : World) :
    calls (Run.newDaemon w).events =
      ⟨if w.NewDaemon = none then [.daemon] else [], [], [], []⟩ := by
  rcases w with ⟨b1, b2, b3, b4, b5, b6, b7, b8, b9, b10, b11⟩
  cases b4 <;> rfl

theorem newDaemon_next (w : World) :
    (Run.newDaemon w).next = if w.NewDaemon = none then some () else none := by
  rcases w with ⟨b1, b2, b3, b4, b5, b6, b7, b8, b9, b10, b11⟩
  cases b4 <;> rfl

theorem newRPC_calls (c : Config) (w : World) :
    calls (Run.newRPC c w).events =
      ⟨if c.RPCInterface = true ∧ w.webrpcNew = none then [.rpc] else [], [], [], []⟩ := by
  rcases c with ⟨a1, a2, a3, a4, a5, a6, a7, s⟩
  rcases w with ⟨b1, b2, b3, b4, b5, b6, b7, b8, b9, b10, b11⟩
  cases a3 <;> cases b5 <;> rfl

theorem newRPC_next (c : Config) (w : World) :
    (Run.newRPC c w).next =
      if c.RPCInterface = true then (if w.webrpcNew = none then some (some .rpc) else none)
      else some none := by
  rcases c with ⟨a1, a2, a3, a4, a5, a6, a7, s⟩
  rcases w with ⟨b1, b2, b3, b4, b5, b6, b7, b8, b9, b10, b11⟩
  cases a3 <;> cases b5 <;> rfl

theorem newWeb_calls (c : Config) (w : World) :
    calls (Run.newWeb c w).events =
      ⟨if c.WebInterface = true ∧ createGUI.err c w = none then [.web] else [], [], [], []⟩ := by
  rcases c with ⟨a1, a2, a3, a4, a5, a6, a7, s⟩
  rcases w with ⟨b1, b2, b3, b4, b5, b6, b7, b8, b9, b10, b11⟩
  cases a1 <;> cases a2 <;> cases b6 <;> cases b7 <;> cases b8 <;> rfl

theorem newWeb_next (c : Config) (w : World) :
    (Run.newWeb c w).next =
      if c.WebInterface = true then
        (if createGUI.err c w = none then some (some .web) else none)
      else some none := by
  rcases c with ⟨a1, a2, a3, a4, a5, a6, a7, s⟩
  rcases w with ⟨b1, b2, b3, b4, b5, b6, b7, b8, b9, b10, b11⟩
  cases a1 <;> cases a2 <;> cases b6 <;> cases b7 <;> cases b8 <;> rfl

theorem connect_calls (c : Config) (w : World) :
    calls (Run.connect c w).events = ⟨[], [], [], []⟩ := by
  unfold Run.connect
  by_cases hs : (c.ConnectTo != "") = true
  · rw [if_pos hs]; cases w.Connect <;> rfl
  · rw [if_neg hs]; rfl

theorem connect_next (c : Config) (w : World) :
    (Run.connect c w).next =
      if c.ConnectTo ≠ "" ∧ w.Connect ≠ none then none else some () := by
  unfold Run.connect
  by_cases hs : c.ConnectTo = ""
  · simp [hs]; rfl
  · have hb : (c.ConnectTo != "") = true := by simpa using hs
    rw [if_pos hb]
    cases h : w.Connect
    · simp [h]; rfl
    · simp [h, hs]; rfl

end suncoin
namespace suncoin

theorem startup_next (c : Config) (w : World) :
    (Run.startup c w).next =
      if StartupFails c w then none
      else some ⟨if c.RPCInterface = true then some .rpc else none,
                 if c.WebInterface = true then some .web else none⟩ := by
  unfold Run.startup StartupFails
  simp only [Step.bind_next, openDB_next, newDaemon_next, newRPC_next, newWeb_next,
    connect_next]
  by_cases h1 : w.OpenDB = none <;> by_cases h2 : w.NewDaemon = none <;>
    by_cases h3 : c.RPCInterface = true <;> by_cases h4 : w.webrpcNew = none <;>
    by_cases h5 : c.WebInterface = true <;> by_cases h6 : createGUI.err c w = none <;>
    by_cases h7 : c.ConnectTo ≠ "" ∧ w.Connect ≠ none <;>
    simp [h1, h2, h3, h4, h5, h6, h7] <;> rfl

theorem startup_calls (c : Config) (w : World) :
    (calls (Run.startup c w).events).started = [] ∧
    (calls (Run.startup c w).events).shutdowns = [] ∧
    (calls (Run.startup c w).events).closing = [] ∧
    (¬ StartupFails c w → (calls (Run.startup c w).events).constructed = enabled c) := by
  unfold Run.startup StartupFails enabled
  simp only [Step.bind_events, Step.bind_next, calls_append, openDB_next, newDaemon_next,
    newRPC_next, newWeb_next, connect_next]
  by_cases h1 : w.OpenDB = none <;> by_cases h2 : w.NewDaemon = none <;>
    by_cases h3 : c.RPCInterface = true <;> by_cases h4 : w.webrpcNew = none <;>
    by_cases h5 : c.WebInterface = true <;> by_cases h6 : createGUI.err c w = none <;>
    by_cases h7 : c.ConnectTo ≠ "" ∧ w.Connect ≠ none <;>
    simp [h1, h2, h3, h4, h5, h6, h7, calls_append, openDB_calls, newDaemon_calls,
      newRPC_calls, newWeb_calls, connect_calls, Calls.append] <;>
    first | exact ⟨rfl, rfl, rfl⟩ | exact ⟨rfl, rfl, rfl, rfl⟩

theorem launch_calls (c : Config) :
    calls (Run.launch c).events = ⟨[], enabled c, [], []⟩ := by
  rcases c with ⟨a1, a2, a3, a4, a5, a6, a7, s⟩
  cases a1 <;> cases a3 <;> cases a4 <;> rfl

theorem launch_next (c : Config) : (Run.launch c).next = some () := by
  rcases c with ⟨a1, a2, a3, a4, a5, a6, a7, s⟩
  cases a1 <;> cases a3 <;> cases a4 <;> rfl

theorem await_calls (w : World) : calls (Run.await w).events = ⟨[], [], [], []⟩ := by
  rcases w with ⟨b1, b2, b3, b4, b5, b6, b7, b8, b9, b10, b11⟩
  rcases b10 with _ | _ | _ <;> rfl

theorem await_next (w : World) : (Run.await w).next = w.selected.map fun _ => () := by
  rcases w with ⟨b1, b2, b3, b4, b5, b6, b7, b8, b9, b10, b11⟩
  rcases b10 with _ | _ | _ <;> rfl

theorem shutdown_calls (hs : Handles) (w : World) :
    calls (Run.shutdown hs w).events =
      ⟨[], [], hs.rpc.toList ++ hs.webInterface.toList ++ [.daemon],
        [.closelog, .wgWait] ++ (if w.waitReturns = true then [.goodbye] else [])⟩ := by
  rcases hs with ⟨r, g⟩
  rcases w with ⟨b1, b2, b3, b4, b5, b6, b7, b8, b9, b10, b11⟩
  cases r <;> cases g <;> cases b11 <;> rfl

/-- The handle calls of a run in which the goroutine stops before or in startup. -/
theorem calls_of_stopped (c : Config) (w : World)
    (h : (Run.prologue c w).next = none ∨ StartupFails c w) :
    (calls (trace c w)).started = [] ∧ (calls (trace c w)).shutdowns = [] ∧
    (calls (trace c w)).closing = [] := by
  unfold trace Run
  have hs := startup_calls c w
  rw [Step.bind_events]
  cases hp : (Run.prologue c w).next with
  | none =>
    rw [List.append_nil, prologue_calls]
    exact ⟨rfl, rfl, rfl⟩
  | some u =>
    rcases h with h | h
    · rw [hp] at h; cases h
    · simp only [Step.bind_events, Step.bind_next, calls_append, listeners_next,
        prologue_calls, listeners_calls, Calls.nil_append, startup_next, if_pos h,
        List.append_nil]
      exact ⟨hs.1, hs.2.1, hs.2.2.1⟩

/-- The handle calls of a run that gets through startup and whose `select` fires. -/
theorem calls_of_selected (c : Config) (w : World) (cause : Cause)
    (hok : StartupSucceeds c w) (hsel : w.selected = some cause) :
    calls (trace c w) =
      ⟨enabled c, enabled c,
        (if c.RPCInterface = true then [.rpc] else []) ++
        (if c.WebInterface = true then [.web] else []) ++ [.daemon],
        [.closelog, .wgWait] ++ (if w.waitReturns = true then [.goodbye] else [])⟩ := by
  unfold trace Run
  obtain ⟨h1, h2, h3⟩ := hok
  have hs := startup_calls c w
  have hp : (Run.prologue c w).next = some () := by
    rw [prologue_next, if_pos ⟨h1, h2⟩]
  simp only [Step.bind_events, Step.bind_next, calls_append, listeners_next, prologue_calls,
    listeners_calls, Calls.nil_append, hp, startup_next, if_neg h3, launch_next, await_next,
    hsel, Option.map_some', launch_calls, await_calls, shutdown_calls, Option.some_bind]
  rcases hc : calls (Run.startup c w).events with ⟨x, y, z, v⟩
  rw [hc] at hs
  obtain ⟨hy, hz, hv, hx⟩ := hs
  simp only at hy hz hv hx
  rw [hy, hz, hv, hx h3]
  by_cases h5 : c.RPCInterface = true <;> by_cases h6 : c.WebInterface = true <;>
    simp [h5, h6, Calls.append]

theorem Run_next_of_stopped (c : Config) (w : World)
    (h : (Run.prologue c w).next = none ∨ StartupFails c w) : (Run c w).next = none := by
  unfold Run
  simp only [Step.bind_next, listeners_next, startup_next]
  cases hp : (Run.prologue c w).next with
  | none => rfl
  | some u =>
    rcases h with h | h
    · rw [hp] at h; cases h
    · simp [h]

end suncoin

namespace suncoin

/-! ### Node supervisor: the claims -/

theorem reverse_shutdown_fails :
    StartupSucceeds (Config.plain true true) (World.calm .quit) ∧
    started (trace (Config.plain true true) (World.calm .quit)) = [.daemon, .rpc, .web] ∧
    shutdowns (trace (Config.plain true true) (World.calm .quit)) = [.rpc, .web, .daemon] ∧
    shutdowns (trace (Config.plain true true) (World.calm .quit)) ≠
      (started (trace (Config.plain true true) (World.calm .quit))).reverse := by
  decide

/-- C8, amended: in every run that gets through startup and whose `select` fires, the
workers are started in the order daemon, RPC server (when `RPCInterface`), web interface
(when `WebInterface`), and `Shutdown` is called on the RPC server (when enabled), then on
the web interface (when enabled), then on the daemon, which is always last. This is the
reverse of the start order exactly when the RPC server and the web interface are not
both enabled. -/
theorem shutdown_order (c : Config) (w : World) (cause : Cause)
    (hok : StartupSucceeds c w) (hsel : w.selected = some cause) :
    started (trace c w) =
      [.daemon] ++ (if c.RPCInterface = true then [.rpc] else []) ++
        (if c.WebInterface = true then [.web] else []) ∧
    shutdowns (trace c w) =
      (if c.RPCInterface = true then [.rpc] else []) ++
        (if c.WebInterface = true then [.web] else []) ++ [.daemon] ∧
    (shutdowns (trace c w) = (started (trace c w)).reverse ↔
      ¬ (c.RPCInterface = true ∧ c.WebInterface = true)) := by
  have h := calls_of_selected c w cause hok hsel
  have h1 : started (trace c w) = enabled c := congrArg Calls.started h
  have h2 : shutdowns (trace c w) =
      (if c.RPCInterface = true then [.rpc] else []) ++
        (if c.WebInterface = true then [.web] else []) ++ [.daemon] :=
    congrArg Calls.shutdowns h
  rw [h1, h2]
  unfold enabled
  cases c.RPCInterface <;> cases c.WebInterface <;> simp

theorem shutdown_order_witness :
    StartupSucceeds (Config.plain true false) (World.calm (.errC "listen failed")) ∧
    (World.calm (.errC "listen failed")).selected = some (.errC "listen failed") ∧
    (started (trace (Config.plain true false) (World.calm (.errC "listen failed"))) =
      [.daemon] ++ (if (Config.plain true false).RPCInterface = true then [.rpc] else []) ++
        (if (Config.plain true false).WebInterface = true then [.web] else []) ∧
    shutdowns (trace (Config.plain true false) (World.calm (.errC "listen failed"))) =
      (if (Config.plain true false).RPCInterface = true then [.rpc] else []) ++
        (if (Config.plain true false).WebInterface = true then [.web] else []) ++
          [.daemon] ∧
    (shutdowns (trace (Config.plain true false) (World.calm (.errC "listen failed"))) =
        (started (trace (Config.plain true false)
          (World.calm (.errC "listen failed")))).reverse ↔
      ¬ ((Config.plain true false).RPCInterface = true ∧
        (Config.plain true false).WebInterface = true))) :=
  ⟨by decide, rfl, shutdown_order _ _ _ (by decide) rfl⟩

/-- C9: in every run that gets through startup, whatever `RPCInterface` and
`WebInterface` are and whichever case of the `select` fires (the interrupt or a worker
error), `Run` calls `Shutdown` exactly once on every handle that was constructed and
never on a handle that was not; the daemon is always constructed, the RPC server exactly
when `RPCInterface`, the web interface exactly when `WebInterface`, each at most once. -/
theorem shutdown_exactly_once (c : Config) (w : World) (cause : Cause)
    (hok : StartupSucceeds c w) (hsel : w.selected = some cause) :
    (∀ h : Handle, (shutdowns (trace c w)).count h =
      if h ∈ constructed (trace c w) then 1 else 0) ∧
    Handle.daemon ∈ constructed (trace c w) ∧
    (Handle.rpc ∈ constructed (trace c w) ↔ c.RPCInterface = true) ∧
    (Handle.web ∈ constructed (trace c w) ↔ c.WebInterface = true) ∧
    (constructed (trace c w)).Nodup := by
  have h := calls_of_selected c w cause hok hsel
  have h1 : constructed (trace c w) = enabled c := congrArg Calls.constructed h
  have h2 : shutdowns (trace c w) =
      (if c.RPCInterface = true then [.rpc] else []) ++
        (if c.WebInterface = true then [.web] else []) ++ [.daemon] :=
    congrArg Calls.shutdowns h
  rw [h1, h2]
  unfold enabled
  refine ⟨?_, ?_, ?_, ?_, ?_⟩
  · intro h
    cases c.RPCInterface <;> cases c.WebInterface <;> cases h <;> decide
  · cases c.RPCInterface <;> cases c.WebInterface <;> decide
  · cases c.RPCInterface <;> cases c.WebInterface <;> decide
  · cases c.RPCInterface <;> cases c.WebInterface <;> decide
  · cases c.RPCInterface <;> cases c.WebInterface <;> decide

theorem shutdown_exactly_once_witness :
    StartupSucceeds (Config.plain false true) (World.calm .quit) ∧
    (World.calm .quit).selected = some .quit ∧
    ((∀ h : Handle, (shutdowns (trace (Config.plain false true) (World.calm .quit))).count h =
      if h ∈ constructed (trace (Config.plain false true) (World.calm .quit)) then 1 else 0) ∧
    Handle.daemon ∈ constructed (trace (Config.plain false true) (World.calm .quit)) ∧
    (Handle.rpc ∈ constructed (trace (Config.plain false true) (World.calm .quit)) ↔
      (Config.plain false true).RPCInterface = true) ∧
    (Handle.web ∈ constructed (trace (Config.plain false true) (World.calm .quit)) ↔
      (Config.plain false true).WebInterface = true) ∧
    (constructed (trace (Config.plain false true) (World.calm .quit))).Nodup) :=
  ⟨by decide, rfl, shutdown_exactly_once _ _ _ (by decide) rfl⟩

/-- C10: when a startup step fails (the database open, the daemon construction, the RPC
construction, the web interface construction or the forced connect), `Run` returns
early: no worker goroutine is launched (no `Run` of the daemon, the RPC server or the
web server), and the shutdown sequence is not reached (no `Shutdown` call, no
`closelog`, no `wg.Wait`). -/
theorem startup_failure_launches_nothing (c : Config) (w : World) (hfail : StartupFails c w) :
    (Run c w).next = none ∧
    started (trace c w) = [] ∧
    shutdowns (trace c w) = [] ∧
    closing (trace c w) = [] ∧
    (∀ h : Handle, Event.goRun h ∉ trace c w ∧ Event.shutdown h ∉ trace c w) ∧
    Event.closelog ∉ trace c w ∧ Event.wgWait ∉ trace c w := by
  have hc := calls_of_stopped c w (Or.inr hfail)
  have h1 : started (trace c w) = [] := hc.1
  have h2 : shutdowns (trace c w) = [] := hc.2.1
  have h3 : closing (trace c w) = [] := hc.2.2
  refine ⟨Run_next_of_stopped c w (Or.inr hfail), h1, h2, h3, ?_, ?_, ?_⟩
  · intro h
    constructor
    · intro hm
      have : h ∈ started (trace c w) := List.mem_filterMap.2 ⟨_, hm, rfl⟩
      rw [h1] at this; cases this
    · intro hm
      have : h ∈ shutdowns (trace c w) := List.mem_filterMap.2 ⟨_, hm, rfl⟩
      rw [h2] at this; cases this
  · intro hm
    have : Event.closelog ∈ closing (trace c w) := List.mem_filter.2 ⟨hm, by decide⟩
    rw [h3] at this; cases this
  · intro hm
    have : Event.wgWait ∈ closing (trace c w) := List.mem_filter.2 ⟨hm, by decide⟩
    rw [h3] at this; cases this

theorem startup_failure_launches_nothing_witness :
    StartupFails (Config.plain true true)
      { World.calm .quit with guiCreate := some "address already in use" } ∧
    ((Run (Config.plain true true)
      { World.calm .quit with guiCreate := some "address already in use" }).next = none ∧
    started (trace (Config.plain true true)
      { World.calm .quit with guiCreate := some "address already in use" }) = [] ∧
    shutdowns (trace (Config.plain true true)
      { World.calm .quit with guiCreate := some "address already in use" }) = [] ∧
    closing (trace (Config.plain true true)
      { World.calm .quit with guiCreate := some "address already in use" }) = [] ∧
    (∀ h : Handle,
      Event.goRun h ∉ trace (Config.plain true true)
        { World.calm .quit with guiCreate := some "address already in use" } ∧
      Event.shutdown h ∉ trace (Config.plain true true)
        { World.calm .quit with guiCreate := some "address already in use" }) ∧
    Event.closelog ∉ trace (Config.plain true true)
      { World.calm .quit with guiCreate := some "address already in use" } ∧
    Event.wgWait ∉ trace (Config.plain true true)
      { World.calm .quit with guiCreate := some "address already in use" }) :=
  ⟨by decide, startup_failure_launches_nothing _ _ (by decide)⟩

end suncoin

namespace suncoin

/-! ### The goroutines of a run -/

theorem init_inv (c : Config) : (Sys.init c).Inv := by
  rcases c with ⟨a1, a2, a3, a4, a5, a6, a7, s⟩
  cases a1 <;> cases a3 <;> cases a4 <;> constructor <;>
    first | rfl | exact Nat.le_of_ble_eq_true rfl

theorem step_interrupt_listening (s : Sys) (hl : s.listener = .listening)
    (hm : s.main ≠ .exited) :
    s.step .interrupt =
      if s.wg = 0 then none
      else some { s with quitCloses := s.quitCloses + 1, listener := .terminating,
                         wg := s.wg - 1 } := by
  unfold Sys.step
  rw [if_neg (by rw [hl]; simp [hm])]
  simp only [hl, interruptListener, catchInterrupt, List.cons_append, List.nil_append,
    List.foldlM_cons, List.foldlM_nil, Sys.listen, Sys.done, Option.bind_eq_bind, Option.some_bind,
    Option.pure_def, Option.bind_some]

theorem step_interrupt_terminating (s : Sys) (hl : s.listener = .terminating)
    (hm : s.main ≠ .exited) :
    s.step .interrupt = some { s with listener := .aborted } := by
  unfold Sys.step
  rw [if_neg (by rw [hl]; simp [hm])]
  simp only [hl, catchInterruptPanic, List.foldlM_cons, List.foldlM_nil, Sys.listen,
    Option.bind_eq_bind, Option.some_bind, Option.pure_def]

theorem donesLeft_body (r : Routine) (result : Option Error) :
    (r.body result).count .wgDone = 1 := by
  cases r <;> cases result <;> rfl

theorem sendsLeft_worker (result : Option Error) :
    (worker result).countP WorkerOp.isSend ≤ 1 := by
  cases result <;> exact Nat.le_of_ble_eq_true rfl

theorem sendsLeft_launchBrowser (result : Option Error) :
    (launchBrowser result).countP WorkerOp.isSend = 0 := by
  cases result <;> rfl

theorem step_inv_interrupt (s s1 : Sys) (hinv : s.Inv) (h : s.step .interrupt = some s1) :
    s1.Inv := by
  have hdead : ¬ (s.listener = .aborted ∨ s.main = .exited) := by
    intro hd; unfold Sys.step at h; rw [if_pos hd] at h; cases h
  have hm : s.main ≠ .exited := fun hm => hdead (Or.inr hm)
  obtain ⟨h1, h2, h3, h4, h5⟩ := hinv
  cases hl : s.listener with
  | listening =>
    rw [step_interrupt_listening s hl hm] at h
    by_cases hw : s.wg = 0
    · rw [if_pos hw] at h; cases h
    · rw [if_neg hw] at h
      cases h
      rw [hl] at h1 h2
      constructor
      · simp only [if_true] at h1
        simp only [reduceCtorEq, if_false]
        omega
      · simp only [if_true] at h2
        simp only [reduceCtorEq, if_false]
        omega
      · exact h3
      · exact h4
      · exact h5
  | terminating =>
    rw [step_interrupt_terminating s hl hm] at h
    cases h
    rw [hl] at h1 h2
    constructor
    · simpa using h1
    · simpa using h2
    · exact h3
    · exact h4
    · exact h5
  | aborted => exact absurd (Or.inl hl) hdead

end suncoin

namespace suncoin

theorem step_returns (s : Sys) (r : Routine) (result : Option Error)
    (hdead : ¬ (s.listener = .aborted ∨ s.main = .exited)) :
    s.step (.returns r result) =
      if s.get r = .blocked then some (s.set r (.ready (r.body result))) else none := by
  unfold Sys.step
  rw [if_neg hdead]
  cases hg : s.get r <;> simp [hg]

theorem step_step (s : Sys) (r : Routine)
    (hdead : ¬ (s.listener = .aborted ∨ s.main = .exited)) :
    s.step (.step r) =
      match s.get r with
      | .ready (op :: todo) => (s.exec op).map fun s1 => s1.set r (.ready todo)
      | _ => none := by
  unfold Sys.step
  rw [if_neg hdead]

theorem not_dead_of_step (s s1 : Sys) (a : Action) (h : s.step a = some s1) :
    ¬ (s.listener = .aborted ∨ s.main = .exited) := by
  intro hd; unfold Sys.step at h; rw [if_pos hd] at h; cases h

theorem step_inv_returns (s s1 : Sys) (r : Routine) (result : Option Error) (hinv : s.Inv)
    (h : s.step (.returns r result) = some s1) : s1.Inv := by
  rw [step_returns s r result (not_dead_of_step s s1 _ h)] at h
  by_cases hg : s.get r = .blocked
  · rw [if_pos hg] at h
    cases h
    obtain ⟨h1, h2, h3, h4, h5⟩ := hinv
    have hb := donesLeft_body r result
    rcases s with ⟨wg, q, errC, sends, l, d, p, w, b, m, c⟩
    cases r with
    | worker k =>
      have hs := sendsLeft_worker result
      cases k <;> simp only [Sys.get] at hg <;> subst hg <;>
        simp only [Sys.set, Routine.body, Goroutine.donesLeft, Goroutine.sendsLeft] at * <;>
        constructor <;> simp only [Goroutine.donesLeft, Goroutine.sendsLeft] <;>
        omega
    | browser =>
      have hs := sendsLeft_launchBrowser result
      simp only [Sys.get] at hg
      subst hg
      simp only [Sys.set, Routine.body, Goroutine.donesLeft, Goroutine.sendsLeft] at *
      constructor <;> simp only [Goroutine.donesLeft, Goroutine.sendsLeft] <;>
        omega
  · rw [if_neg hg] at h; cases h

theorem step_step_some (s s1 : Sys) (r : Routine) (h : s.step (.step r) = some s1) :
    ∃ op todo s2, s.get r = .ready (op :: todo) ∧ s.exec op = some s2 ∧
      s1 = s2.set r (.ready todo) := by
  rw [step_step s r (not_dead_of_step s s1 _ h)] at h
  cases hg : s.get r with
  | absent => rw [hg] at h; cases h
  | blocked => rw [hg] at h; cases h
  | ready todo =>
    rw [hg] at h
    cases todo with
    | nil => cases h
    | cons op todo =>
      simp only [Option.map_eq_some'] at h
      obtain ⟨s2, h2, h3⟩ := h
      exact ⟨op, todo, s2, rfl, h2, h3.symm⟩

theorem exec_some (s s2 : Sys) (op : WorkerOp) (h : s.exec op = some s2) :
    (∃ e, op = .logError e ∧ s2 = s) ∨
    (∃ e, op = .send e ∧ s.errC.length < errCCapacity ∧
      s2 = { s with errC := s.errC ++ [e], sends := s.sends + 1 }) ∨
    (op = .wgDone ∧ s.wg ≠ 0 ∧ s2 = { s with wg := s.wg - 1 }) := by
  cases op with
  | logError e =>
    simp only [Sys.exec, Option.some.injEq] at h
    exact Or.inl ⟨e, rfl, h.symm⟩
  | send e =>
    simp only [Sys.exec] at h
    by_cases hc : s.errC.length < errCCapacity
    · rw [if_pos hc] at h
      simp only [Option.some.injEq] at h
      exact Or.inr (Or.inl ⟨e, rfl, hc, h.symm⟩)
    · rw [if_neg hc] at h; cases h
  | wgDone =>
    simp only [Sys.exec, Sys.done] at h
    by_cases hw : s.wg = 0
    · rw [if_pos hw] at h; cases h
    · rw [if_neg hw] at h
      simp only [Option.some.injEq] at h
      exact Or.inr (Or.inr ⟨rfl, hw, h.symm⟩)

theorem step_inv_step (s s1 : Sys) (r : Routine) (hinv : s.Inv)
    (h : s.step (.step r) = some s1) : s1.Inv := by
  obtain ⟨op, todo, s2, hg, he, rfl⟩ := step_step_some s s1 r h
  obtain ⟨h1, h2, h3, h4, h5⟩ := hinv
  rcases s with ⟨wg, q, errC, sends, l, d, p, w, b, m, c⟩
  rcases exec_some _ _ _ he with ⟨e, rfl, rfl⟩ | ⟨e, rfl, hc, rfl⟩ | ⟨rfl, hw, rfl⟩ <;>
    rcases r with (_ | _ | _) | _ <;> simp only [Sys.get] at hg <;> subst hg <;>
    simp only [Sys.set, Goroutine.donesLeft, Goroutine.sendsLeft, List.count_cons,
      List.countP_cons, WorkerOp.isSend] at * <;>
    constructor <;>
    simp only [Goroutine.donesLeft, Goroutine.sendsLeft, List.length_append,
      List.length_singleton] <;>
    (try simp only [reduceCtorEq, if_false, if_true, beq_self_eq_true, Bool.false_eq_true,
      add_zero, beq_iff_eq] at *) <;>
    omega

theorem step_selectQuit (s : Sys) (hdead : ¬ (s.listener = .aborted ∨ s.main = .exited)) :
    s.step .selectQuit =
      if s.main = .awaiting ∧ 0 < s.quitCloses then
        some { s with main := .waiting, cause := some .quit }
      else none := by
  unfold Sys.step
  rw [if_neg hdead]

theorem step_selectErr (s : Sys) (hdead : ¬ (s.listener = .aborted ∨ s.main = .exited)) :
    s.step .selectErr =
      match s.main, s.errC with
      | .awaiting, err :: rest =>
        some { s with errC := rest, main := .waiting, cause := some (.errC err) }
      | _, _ => none := by
  unfold Sys.step
  rw [if_neg hdead]

theorem step_waitDone (s : Sys) (hdead : ¬ (s.listener = .aborted ∨ s.main = .exited)) :
    s.step .waitDone =
      if s.main = .waiting ∧ s.wg = 0 then some { s with main := .exited } else none := by
  unfold Sys.step
  rw [if_neg hdead]

theorem step_inv (s s1 : Sys) (a : Action) (hinv : s.Inv) (h : s.step a = some s1) :
    s1.Inv := by
  have hd := not_dead_of_step s s1 a h
  cases a with
  | interrupt => exact step_inv_interrupt s s1 hinv h
  | returns r result => exact step_inv_returns s s1 r result hinv h
  | step r => exact step_inv_step s s1 r hinv h
  | selectQuit =>
    rw [step_selectQuit s hd] at h
    split at h
    · cases h
      obtain ⟨h1, h2, h3, h4, h5⟩ := hinv
      exact ⟨h1, h2, h3, h4, h5⟩
    · cases h
  | selectErr =>
    rw [step_selectErr s hd] at h
    split at h
    · rename_i err rest hm he
      cases h
      obtain ⟨h1, h2, h3, h4, h5⟩ := hinv
      refine ⟨h1, h2, h3, ?_, h5⟩
      rw [he] at h4
      simp only [List.length_cons] at h4
      show rest.length ≤ s.sends
      omega
    · cases h
  | waitDone =>
    rw [step_waitDone s hd] at h
    split at h
    · cases h
      obtain ⟨h1, h2, h3, h4, h5⟩ := hinv
      exact ⟨h1, h2, h3, h4, h5⟩
    · cases h

theorem run_nil (s : Sys) : s.run [] = some s := rfl

theorem run_cons (s : Sys) (a : Action) (acts : List Action) :
    s.run (a :: acts) = (s.step a).bind fun s1 => s1.run acts := by
  unfold Sys.run
  rw [List.foldlM_cons]
  rfl

theorem run_append (s : Sys) (xs ys : List Action) :
    s.run (xs ++ ys) = (s.run xs).bind fun s1 => s1.run ys := by
  unfold Sys.run
  rw [List.foldlM_append]
  rfl

theorem run_inv (acts : List Action) :
    ∀ (s s1 : Sys), s.Inv → s.run acts = some s1 → s1.Inv := by
  induction acts with
  | nil => intro s s1 hinv h; cases h; exact hinv
  | cons a acts ih =>
    intro s s1 hinv h
    rw [run_cons] at h
    cases hs : s.step a with
    | none => rw [hs] at h; cases h
    | some s2 =>
      rw [hs] at h
      exact ih s2 s1 (step_inv s s2 a hinv hs) h

end suncoin

namespace suncoin

theorem get_set_same (s : Sys) (r : Routine) (g : Goroutine) : (s.set r g).get r = g := by
  rcases r with (_ | _ | _) | _ <;> rfl

theorem get_set_ne (s : Sys) (r r1 : Routine) (g : Goroutine) (h : r1 ≠ r) :
    (s.set r g).get r1 = s.get r1 := by
  rcases r with (_ | _ | _) | _ <;> rcases r1 with (_ | _ | _) | _ <;>
    first | rfl | exact absurd rfl h

theorem set_fields (s : Sys) (r : Routine) (g : Goroutine) :
    (s.set r g).wg = s.wg ∧ (s.set r g).quitCloses = s.quitCloses ∧
    (s.set r g).errC = s.errC ∧ (s.set r g).sends = s.sends ∧
    (s.set r g).listener = s.listener ∧ (s.set r g).main = s.main ∧
    (s.set r g).cause = s.cause := by
  rcases r with (_ | _ | _) | _ <;> exact ⟨rfl, rfl, rfl, rfl, rfl, rfl, rfl⟩

theorem exec_fields (s s2 : Sys) (op : WorkerOp) (h : s.exec op = some s2) :
    s2.listener = s.listener ∧ s2.main = s.main ∧ s2.quitCloses = s.quitCloses ∧
    s2.cause = s.cause ∧ (∀ r, s2.get r = s.get r) ∧
    s2.sends = s.sends + (if op.isSend then 1 else 0) ∧
    s2.wg + (if op = .wgDone then 1 else 0) = s.wg ∧
    s2.errC = s.errC ++ op.sent.toList := by
  rcases exec_some s s2 op h with ⟨e, rfl, rfl⟩ | ⟨e, rfl, _, rfl⟩ | ⟨rfl, hw, rfl⟩
  · exact ⟨rfl, rfl, rfl, rfl, fun _ => rfl, rfl, rfl, (List.append_nil _).symm⟩
  · refine ⟨rfl, rfl, rfl, rfl, fun r => ?_, rfl, rfl, rfl⟩
    rcases r with (_ | _ | _) | _ <;> rfl
  · refine ⟨rfl, rfl, rfl, rfl, fun r => ?_, rfl, ?_, (List.append_nil _).symm⟩
    · rcases r with (_ | _ | _) | _ <;> rfl
    · simp only [if_true]; omega

theorem donesLeft_le_wg (s : Sys) (hinv : s.Inv) (r : Routine) :
    (s.get r).donesLeft ≤ s.wg := by
  have h1 := hinv.wg_eq
  rcases r with (_ | _ | _) | _ <;> simp only [Sys.get] <;> omega

theorem errC_room (s : Sys) (hinv : s.Inv) : s.errC.length < errCCapacity := by
  have h3 := hinv.sends_le
  have h4 := hinv.buffered_le
  unfold errCCapacity
  omega

/-- A goroutine that is back from its call can execute every operation it has left:
no send blocks and no `wg.Done()` finds the counter at zero. -/
theorem exec_enabled (s : Sys) (hinv : s.Inv) (r : Routine) (op : WorkerOp)
    (todo : List WorkerOp) (hg : s.get r = .ready (op :: todo)) :
    ∃ s2, s.exec op = some s2 := by
  cases op with
  | logError e => exact ⟨s, rfl⟩
  | send e =>
    simp only [Sys.exec, if_pos (errC_room s hinv)]
    exact ⟨_, rfl⟩
  | wgDone =>
    have hw := donesLeft_le_wg s hinv r
    rw [hg] at hw
    simp only [Goroutine.donesLeft, List.count_cons_self] at hw
    have hne : s.wg ≠ 0 := by omega
    simp only [Sys.exec, Sys.done, if_neg hne]
    exact ⟨_, rfl⟩

theorem drain (todo : List WorkerOp) :
    ∀ (s : Sys) (r : Routine), s.Inv → ¬ (s.listener = .aborted ∨ s.main = .exited) →
      s.get r = .ready todo →
      ∃ s1, s.run (List.replicate todo.length (.step r)) = some s1 ∧
        s1.get r = .ready [] ∧ (∀ r1, r1 ≠ r → s1.get r1 = s.get r1) ∧
        s1.listener = s.listener ∧ s1.main = s.main ∧ s1.quitCloses = s.quitCloses ∧
        s1.sends = s.sends + todo.countP WorkerOp.isSend ∧
        s1.wg + todo.count .wgDone = s.wg ∧
        s1.errC = s.errC ++ todo.filterMap WorkerOp.sent := by
  induction todo with
  | nil =>
    intro s r _ _ hg
    exact ⟨s, rfl, hg, fun _ _ => rfl, rfl, rfl, rfl, rfl, rfl, (List.append_nil _).symm⟩
  | cons op todo ih =>
    intro s r hinv hd hg
    obtain ⟨s2, he⟩ := exec_enabled s hinv r op todo hg
    have hstep : s.step (.step r) = some (s2.set r (.ready todo)) := by
      rw [step_step s r hd, hg]
      simp only [he, Option.map_some']
    obtain ⟨e1, e2, e3, e4, e5, e6, e7, e8⟩ := exec_fields s s2 op he
    obtain ⟨f1, f2, f3, f4, f5, f6, f7⟩ := set_fields s2 r (.ready todo)
    have hinv2 := step_inv s _ _ hinv hstep
    have hd2 : ¬ ((s2.set r (.ready todo)).listener = .aborted ∨
        (s2.set r (.ready todo)).main = .exited) := by
      rw [f5, f6, e1, e2]; exact hd
    obtain ⟨s1, g1, g2, g3, g4, g5, g6, g7, g8, g9⟩ :=
      ih (s2.set r (.ready todo)) r hinv2 hd2 (get_set_same _ _ _)
    refine ⟨s1, ?_, g2, ?_, ?_, ?_, ?_, ?_, ?_, ?_⟩
    · rw [List.length_cons, List.replicate_succ, run_cons, hstep]
      exact g1
    · intro r1 hr1
      rw [g3 r1 hr1, get_set_ne _ _ _ _ hr1, e5]
    · rw [g4, f5, e1]
    · rw [g5, f6, e2]
    · rw [g6, f2, e3]
    · rw [g7, f4, e6, List.countP_cons]
      omega
    · rw [f1] at g8
      rw [List.count_cons]
      simp only [beq_iff_eq] at *
      by_cases hop : op = .wgDone
      · subst hop; simp only [if_true] at *; omega
      · have hop2 : ¬ WorkerOp.wgDone = op := fun hh => hop hh.symm
        simp only [hop, hop2, if_false] at *; omega
    · rw [g9, f3, e8, List.append_assoc]
      congr 1
      cases op <;> rfl

end suncoin

namespace suncoin

/-- Only an interrupt moves the interrupt handling on, and by one stage. -/
theorem step_listener (s s1 : Sys) (a : Action) (h : s.step a = some s1) :
    s1.listener.handled = s.listener.handled + (if a = .interrupt then 1 else 0) ∧
    (a = .interrupt → s1.listener = .aborted → s.listener = .terminating) := by
  have hd := not_dead_of_step s s1 a h
  have hm : s.main ≠ .exited := fun hm => hd (Or.inr hm)
  cases a with
  | interrupt =>
    cases hl : s.listener with
    | listening =>
      rw [step_interrupt_listening s hl hm] at h
      split at h
      · cases h
      · cases h; exact ⟨rfl, fun _ hh => by cases hh⟩
    | terminating =>
      rw [step_interrupt_terminating s hl hm] at h
      cases h; exact ⟨rfl, fun _ _ => rfl⟩
    | aborted => exact absurd (Or.inl hl) hd
  | returns r result =>
    rw [step_returns s r result hd] at h
    split at h
    · cases h
      rw [(set_fields s r _).2.2.2.2.1]
      exact ⟨rfl, fun hh => by cases hh⟩
    · cases h
  | step r =>
    obtain ⟨op, todo, s2, _, he, rfl⟩ := step_step_some s s1 r h
    rw [(set_fields s2 r _).2.2.2.2.1, (exec_fields s s2 op he).1]
    exact ⟨rfl, fun hh => by cases hh⟩
  | selectQuit =>
    rw [step_selectQuit s hd] at h
    split at h
    · cases h; exact ⟨rfl, fun hh => by cases hh⟩
    · cases h
  | selectErr =>
    rw [step_selectErr s hd] at h
    split at h
    · cases h; exact ⟨rfl, fun hh => by cases hh⟩
    · cases h
  | waitDone =>
    rw [step_waitDone s hd] at h
    split at h
    · cases h; exact ⟨rfl, fun hh => by cases hh⟩
    · cases h

theorem run_handled (acts : List Action) :
    ∀ (s s1 : Sys), s.run acts = some s1 →
      s1.listener.handled = s.listener.handled + acts.count .interrupt := by
  induction acts with
  | nil => intro s s1 h; cases h; rfl
  | cons a acts ih =>
    intro s s1 h
    rw [run_cons] at h
    cases hs : s.step a with
    | none => rw [hs] at h; cases h
    | some s2 =>
      rw [hs] at h
      rw [ih s2 s1 h, (step_listener s s2 a hs).1, List.count_cons]
      by_cases ha : a = .interrupt
      · subst ha; simp only [if_true, beq_self_eq_true]; omega
      · have ha2 : ¬ Action.interrupt = a := fun hh => ha hh.symm
        simp only [ha, if_false, beq_iff_eq, ha2]; omega

theorem init_listening (c : Config) : (Sys.init c).listener = .listening := rfl

/-- The main goroutine takes the `quit` case of its `select` only once `quit` is
closed. -/
theorem step_cause (s s1 : Sys) (a : Action) (h : s.step a = some s1)
    (hq : s.cause = some .quit → 0 < s.quitCloses) :
    s1.cause = some .quit → 0 < s1.quitCloses := by
  have hd := not_dead_of_step s s1 a h
  have hm : s.main ≠ .exited := fun hm => hd (Or.inr hm)
  cases a with
  | interrupt =>
    cases hl : s.listener with
    | listening =>
      rw [step_interrupt_listening s hl hm] at h
      split at h
      · cases h
      · cases h; intro _; exact Nat.succ_pos _
    | terminating =>
      rw [step_interrupt_terminating s hl hm] at h
      cases h; exact hq
    | aborted => exact absurd (Or.inl hl) hd
  | returns r result =>
    rw [step_returns s r result hd] at h
    split at h
    · cases h
      rw [(set_fields s r _).2.2.2.2.2.2, (set_fields s r _).2.1]
      exact hq
    · cases h
  | step r =>
    obtain ⟨op, todo, s2, _, he, rfl⟩ := step_step_some s s1 r h
    obtain ⟨e1, e2, e3, e4, _⟩ := exec_fields s s2 op he
    rw [(set_fields s2 r _).2.2.2.2.2.2, (set_fields s2 r _).2.1, e3, e4]
    exact hq
  | selectQuit =>
    rw [step_selectQuit s hd] at h
    split at h
    · rename_i hc
      cases h; intro _; exact hc.2
    · cases h
  | selectErr =>
    rw [step_selectErr s hd] at h
    split at h
    · cases h; intro hh; cases hh
    · cases h
  | waitDone =>
    rw [step_waitDone s hd] at h
    split at h
    · cases h; exact hq
    · cases h

theorem run_cause (acts : List Action) :
    ∀ (s s1 : Sys), s.run acts = some s1 → (s.cause = some .quit → 0 < s.quitCloses) →
      s1.cause = some .quit → 0 < s1.quitCloses := by
  induction acts with
  | nil => intro s s1 h hq; cases h; exact hq
  | cons a acts ih =>
    intro s s1 h hq
    rw [run_cons] at h
    cases hs : s.step a with
    | none => rw [hs] at h; cases h
    | some s2 =>
      rw [hs] at h
      exact ih s2 s1 h (step_cause s s2 a hs hq)

end suncoin

namespace suncoin

theorem drain_routine (s : Sys) (r : Routine) (hinv : s.Inv)
    (hd : ¬ (s.listener = .aborted ∨ s.main = .exited)) (hnb : ∀ r1, s.get r1 ≠ .blocked) :
    ∃ internal s1, (∀ a ∈ internal, ∃ r1, a = Action.step r1) ∧
      s.run internal = some s1 ∧ (s1.get r).donesLeft = 0 ∧
      (∀ r1, (s1.get r1).donesLeft ≤ (s.get r1).donesLeft) ∧
      (∀ r1, s1.get r1 ≠ .blocked) ∧ s1.listener = s.listener ∧ s1.main = s.main := by
  cases hg : s.get r with
  | blocked => exact absurd hg (hnb r)
  | absent =>
    refine ⟨[], s, ?_, rfl, ?_, fun _ => le_refl _, hnb, rfl, rfl⟩
    · intro a ha; cases ha
    · rw [hg]; rfl
  | ready todo =>
    obtain ⟨s1, g1, g2, g3, g4, g5, _⟩ := drain todo s r hinv hd hg
    refine ⟨List.replicate todo.length (.step r), s1, ?_, g1, ?_, ?_, ?_, g4, g5⟩
    · intro a ha
      exact ⟨r, List.eq_of_mem_replicate ha⟩
    · rw [g2]; rfl
    · intro r1
      by_cases hr : r1 = r
      · subst hr; rw [g2]; exact Nat.zero_le _
      · rw [g3 r1 hr]
    · intro r1
      by_cases hr : r1 = r
      · subst hr; rw [g2]; intro hh; cases hh
      · rw [g3 r1 hr]; exact hnb r1

theorem drain_all (rs : List Routine) :
    ∀ (s : Sys), s.Inv → ¬ (s.listener = .aborted ∨ s.main = .exited) →
      (∀ r1, s.get r1 ≠ .blocked) →
      ∃ internal s1, (∀ a ∈ internal, ∃ r1, a = Action.step r1) ∧
        s.run internal = some s1 ∧ (∀ r ∈ rs, (s1.get r).donesLeft = 0) ∧
        (∀ r1, (s1.get r1).donesLeft ≤ (s.get r1).donesLeft) ∧
        (∀ r1, s1.get r1 ≠ .blocked) ∧ s1.listener = s.listener ∧ s1.main = s.main := by
  induction rs with
  | nil =>
    intro s _ _ hnb
    refine ⟨[], s, ?_, rfl, ?_, fun _ => le_refl _, hnb, rfl, rfl⟩
    · intro a ha; cases ha
    · intro r hr; cases hr
  | cons r rs ih =>
    intro s hinv hd hnb
    obtain ⟨i1, s1, a1, a2, a3, a4, a5, a6, a7⟩ := drain_routine s r hinv hd hnb
    have hinv1 := run_inv i1 s s1 hinv a2
    have hd1 : ¬ (s1.listener = .aborted ∨ s1.main = .exited) := by rw [a6, a7]; exact hd
    obtain ⟨i2, s2, b1, b2, b3, b4, b5, b6, b7⟩ := ih s1 hinv1 hd1 a5
    refine ⟨i1 ++ i2, s2, ?_, ?_, ?_, ?_, b5, ?_, ?_⟩
    · intro a ha
      rcases List.mem_append.1 ha with h | h
      · exact a1 a h
      · exact b1 a h
    · rw [run_append, a2]; exact b2
    · intro r1 hr1
      rcases List.mem_cons.1 hr1 with h | h
      · subst h
        have := b4 r1
        omega
      · exact b3 r1 h
    · intro r1; exact le_trans (b4 r1) (a4 r1)
    · rw [b6, a6]
    · rw [b7, a7]

theorem nil_error_not_reported :
    worker none = [.wgDone] ∧ (worker none).filterMap WorkerOp.sent = [] ∧
    (Sys.init (Config.plain false false)).run
        [.returns (.worker .daemon) none, .step (.worker .daemon)] =
      some { wg := 1, quitCloses := 0, errC := [], sends := 0, listener := .listening,
             daemon := .ready [], rpc := .absent, web := .absent, browser := .absent,
             main := .awaiting, cause := none } := by
  decide

/-- C11, amended: a launched worker whose handle's `Run` returns sends the returned
error on the error channel exactly once when that error is not `nil`, after logging it,
and sends nothing when it is `nil`; in both cases it then decrements the completion
counter exactly once, as its last operation, and none of its operations blocks. -/
theorem worker_reports_then_done (c : Config) (acts : List Action) (s : Sys) (h : Handle)
    (result : Option Error) (hrun : (Sys.init c).run acts = some s)
    (hl : s.listener ≠ .aborted) (hm : s.main ≠ .exited)
    (hb : s.get (.worker h) = .blocked) :
    (worker result).filterMap WorkerOp.sent = result.toList ∧
    (∀ err, result = some err →
      ∃ pre post, worker result = pre ++ WorkerOp.send err :: post ∧
        WorkerOp.logError err ∈ pre ∧ pre.countP WorkerOp.isSend = 0 ∧
        post = [.wgDone]) ∧
    (worker result).count .wgDone = 1 ∧
    (worker result).getLast? = some .wgDone ∧
    ∃ s1, s.run (.returns (.worker h) result ::
        List.replicate (worker result).length (.step (.worker h))) = some s1 ∧
      s1.get (.worker h) = .ready [] ∧
      s1.errC = s.errC ++ result.toList ∧
      s1.sends = s.sends + result.toList.length ∧
      s1.wg + 1 = s.wg := by
  have hinv := run_inv acts _ s (init_inv c) hrun
  have hd : ¬ (s.listener = .aborted ∨ s.main = .exited) := by
    rintro (h1 | h1)
    · exact hl h1
    · exact hm h1
  have hbody : (worker result).filterMap WorkerOp.sent = result.toList := by
    cases result <;> rfl
  have hcount : (worker result).count .wgDone = 1 := by cases result <;> rfl
  have hsend : (worker result).countP WorkerOp.isSend = result.toList.length := by
    cases result <;> rfl
  have horder : ∀ err, result = some err →
      ∃ pre post, worker result = pre ++ WorkerOp.send err :: post ∧
        WorkerOp.logError err ∈ pre ∧ pre.countP WorkerOp.isSend = 0 ∧
        post = [.wgDone] := by
    intro err he
    subst he
    exact ⟨[.logError err], [.wgDone], rfl, List.mem_singleton.2 rfl, rfl, rfl⟩
  refine ⟨hbody, horder, hcount, by cases result <;> rfl, ?_⟩
  have hstep : s.step (.returns (.worker h) result) =
      some (s.set (.worker h) (.ready (worker result))) := by
    rw [step_returns s _ result hd, if_pos hb]; rfl
  obtain ⟨f1, f2, f3, f4, f5, f6, f7⟩ := set_fields s (.worker h) (.ready (worker result))
  have hinv2 := step_inv s _ _ hinv hstep
  have hd2 : ¬ ((s.set (.worker h) (.ready (worker result))).listener = .aborted ∨
      (s.set (.worker h) (.ready (worker result))).main = .exited) := by
    rw [f5, f6]; exact hd
  obtain ⟨s1, g1, g2, g3, g4, g5, g6, g7, g8, g9⟩ :=
    drain (worker result) _ (.worker h) hinv2 hd2 (get_set_same _ _ _)
  refine ⟨s1, ?_, g2, ?_, ?_, ?_⟩
  · rw [run_cons, hstep]; exact g1
  · rw [g9, f3, hbody]
  · rw [g7, f4, hsend]
  · rw [f1, hcount] at g8; exact g8

theorem worker_reports_then_done_witness :
    (Sys.init (Config.plain false false)).run [] = some (Sys.init (Config.plain false false)) ∧
    (Sys.init (Config.plain false false)).listener ≠ .aborted ∧
    (Sys.init (Config.plain false false)).main ≠ .exited ∧
    (Sys.init (Config.plain false false)).get (.worker .daemon) = .blocked ∧
    ((worker (some "bind: address in use")).filterMap WorkerOp.sent =
      (some "bind: address in use").toList ∧
    (∀ err, some "bind: address in use" = some err →
      ∃ pre post, worker (some "bind: address in use") = pre ++ WorkerOp.send err :: post ∧
        WorkerOp.logError err ∈ pre ∧ pre.countP WorkerOp.isSend = 0 ∧
        post = [.wgDone]) ∧
    (worker (some "bind: address in use")).count .wgDone = 1 ∧
    (worker (some "bind: address in use")).getLast? = some .wgDone ∧
    ∃ s1, (Sys.init (Config.plain false false)).run
        (.returns (.worker .daemon) (some "bind: address in use") ::
          List.replicate (worker (some "bind: address in use")).length
            (.step (.worker .daemon))) = some s1 ∧
      s1.get (.worker .daemon) = .ready [] ∧
      s1.errC = (Sys.init (Config.plain false false)).errC ++
        (some "bind: address in use").toList ∧
      s1.sends = (Sys.init (Config.plain false false)).sends +
        (some "bind: address in use").toList.length ∧
      s1.wg + 1 = (Sys.init (Config.plain false false)).wg) :=
  ⟨rfl, by decide, by decide, rfl,
    worker_reports_then_done (Config.plain false false) [] _ .daemon
      (some "bind: address in use") rfl (by decide) (by decide) rfl⟩

end suncoin

namespace suncoin

/-- The wait group counts every goroutine registered with it that has not yet executed
its deferred `wg.Done()`. On the `quit` path of the `select` the first interrupt has
been handled; once the shutdown has been issued and every launched goroutine is back
from its call, the goroutines finish by steps of their own, the counter reaches zero
and the final wait completes, with no further external event. -/
theorem wait_completes_after_interrupt (c : Config) (acts : List Action) (s : Sys)
    (hrun : (Sys.init c).run acts = some s) :
    s.wg = (if s.listener = .listening then 1 else 0) + s.daemon.donesLeft +
      s.rpc.donesLeft + s.web.donesLeft + s.browser.donesLeft ∧
    (s.cause = some .quit → s.listener ≠ .listening) ∧
    (s.main = .waiting → s.listener = .terminating → (∀ r, s.get r ≠ .blocked) →
      ∃ internal s1, (∀ a ∈ internal, ∃ r, a = Action.step r) ∧
        s.run (internal ++ [.waitDone]) = some s1 ∧ s1.main = .exited ∧ s1.wg = 0) := by
  have hinv := run_inv acts _ s (init_inv c) hrun
  refine ⟨hinv.wg_eq, ?_, ?_⟩
  · intro hc hl
    have hq := run_cause acts _ s hrun (fun hh => by cases hh) hc
    have h2 := hinv.quit_eq
    rw [hl] at h2
    simp only [if_true] at h2
    omega
  · intro hm hl hnb
    have hd : ¬ (s.listener = .aborted ∨ s.main = .exited) := by
      rw [hm, hl]; rintro (h | h) <;> cases h
    obtain ⟨internal, s1, a1, a2, a3, _, _, a6, a7⟩ :=
      drain_all [.worker .daemon, .worker .rpc, .worker .web, .browser] s hinv hd hnb
    have hinv1 := run_inv internal s s1 hinv a2
    have hw := hinv1.wg_eq
    have e1 : s1.daemon.donesLeft = 0 := a3 (.worker .daemon) (by simp)
    have e2 : s1.rpc.donesLeft = 0 := a3 (.worker .rpc) (by simp)
    have e3 : s1.web.donesLeft = 0 := a3 (.worker .web) (by simp)
    have e4 : s1.browser.donesLeft = 0 := a3 .browser (by simp)
    rw [e1, e2, e3, e4, a6, hl] at hw
    have hw0 : s1.wg = 0 := by simpa using hw
    have hd1 : ¬ (s1.listener = .aborted ∨ s1.main = .exited) := by rw [a6, a7]; exact hd
    refine ⟨internal, { s1 with main := .exited }, a1, ?_, rfl, hw0⟩
    rw [run_append, a2]
    show (s1.run [.waitDone]) = _
    rw [run_cons, step_waitDone s1 hd1, if_pos ⟨by rw [a7, hm], hw0⟩]
    rfl

/-- The main goroutine returns only by getting past `wg.Wait()`, with the counter at
zero. -/
theorem step_main (s s1 : Sys) (a : Action) (h : s.step a = some s1)
    (hx : s1.main = .exited) : a = .waitDone ∧ s.wg = 0 ∧ s1.listener = s.listener := by
  have hd := not_dead_of_step s s1 a h
  have hm : s.main ≠ .exited := fun hm => hd (Or.inr hm)
  cases a with
  | interrupt =>
    cases hl : s.listener with
    | listening =>
      rw [step_interrupt_listening s hl hm] at h
      split at h
      · cases h
      · cases h; exact absurd hx hm
    | terminating =>
      rw [step_interrupt_terminating s hl hm] at h
      cases h; exact absurd hx hm
    | aborted => exact absurd (Or.inl hl) hd
  | returns r result =>
    rw [step_returns s r result hd] at h
    split at h
    · cases h
      rw [(set_fields s r _).2.2.2.2.2.1] at hx
      exact absurd hx hm
    · cases h
  | step r =>
    obtain ⟨op, todo, s2, _, he, rfl⟩ := step_step_some s s1 r h
    rw [(set_fields s2 r _).2.2.2.2.2.1, (exec_fields s s2 op he).2.1] at hx
    exact absurd hx hm
  | selectQuit =>
    rw [step_selectQuit s hd] at h
    split at h
    · cases h; cases hx
    · cases h
  | selectErr =>
    rw [step_selectErr s hd] at h
    split at h
    · cases h; cases hx
    · cases h
  | waitDone =>
    rw [step_waitDone s hd] at h
    split at h
    · rename_i hc
      cases h; exact ⟨rfl, hc.2, rfl⟩
    · cases h

theorem run_exited (acts : List Action) :
    ∀ (s s1 : Sys), s.Inv → (s.main = .exited → s.listener ≠ .listening) →
      s.run acts = some s1 → s1.main = .exited → s1.listener ≠ .listening := by
  induction acts with
  | nil => intro s s1 _ hp h; cases h; exact hp
  | cons a acts ih =>
    intro s s1 hinv _ h
    rw [run_cons] at h
    cases hs : s.step a with
    | none => rw [hs] at h; cases h
    | some s2 =>
      rw [hs] at h
      refine ih s2 s1 (step_inv s s2 a hinv hs) ?_ h
      intro hx hl
      obtain ⟨_, hw, hsame⟩ := step_main s s2 a hs hx
      have h1 := hinv.wg_eq
      rw [← hsame, hl] at h1
      simp only [if_true] at h1
      omega

/-- C12: what the code does when no interrupt is delivered. The goroutine that runs
`catchInterrupt` stays registered with the wait group, so in every such run the counter
is at least 1, `wg.Wait()` cannot return and `Run` does not return. In particular, with
the daemon alone, after its `Run` returned an error, the worker sent it and finished,
and the `select` took the error case, the counter is 1 with no worker left and the
final wait is stuck. -/
theorem wait_needs_interrupt (c : Config) (acts : List Action) (s : Sys)
    (hrun : (Sys.init c).run acts = some s) (hno : Action.interrupt ∉ acts) :
    s.listener = .listening ∧ 1 ≤ s.wg ∧ s.main ≠ .exited ∧ s.step .waitDone = none ∧
    (Sys.init (Config.plain false false)).run
        [.returns (.worker .daemon) (some "listen failed"), .step (.worker .daemon),
         .step (.worker .daemon), .step (.worker .daemon), .selectErr] =
      some { wg := 1, quitCloses := 0, errC := [], sends := 1, listener := .listening,
             daemon := .ready [], rpc := .absent, web := .absent, browser := .absent,
             main := .waiting, cause := some (.errC "listen failed") } := by
  have hinv := run_inv acts _ s (init_inv c) hrun
  have hh := run_handled acts _ s hrun
  rw [init_listening, List.count_eq_zero_of_not_mem hno] at hh
  have hl : s.listener = .listening := by
    cases hsl : s.listener <;> rw [hsl] at hh <;> simp [Listener.handled] at hh
  have hw : 1 ≤ s.wg := by
    have h1 := hinv.wg_eq
    rw [hl] at h1
    simp only [if_true] at h1
    omega
  have hm : s.main ≠ .exited := fun hx =>
    run_exited acts _ s (init_inv c) (fun h => by cases h) hrun hx hl
  refine ⟨hl, hw, hm, ?_, by decide⟩
  have hd : ¬ (s.listener = .aborted ∨ s.main = .exited) := by
    rw [hl]; rintro (h | h)
    · cases h
    · exact hm h
  rw [step_waitDone s hd, if_neg]
  rintro ⟨_, h0⟩
  omega

theorem wait_needs_interrupt_witness :
    (Sys.init (Config.plain false false)).run
        [.returns (.worker .daemon) (some "listen failed"), .step (.worker .daemon),
         .step (.worker .daemon), .step (.worker .daemon), .selectErr] =
      some (Sys.reached (Config.plain false false)
        [.returns (.worker .daemon) (some "listen failed"), .step (.worker .daemon),
         .step (.worker .daemon), .step (.worker .daemon), .selectErr]) ∧
    Action.interrupt ∉
      [Action.returns (.worker .daemon) (some "listen failed"), .step (.worker .daemon),
       .step (.worker .daemon), .step (.worker .daemon), .selectErr] ∧
    ((Sys.reached (Config.plain false false)
        [.returns (.worker .daemon) (some "listen failed"), .step (.worker .daemon),
         .step (.worker .daemon), .step (.worker .daemon), .selectErr]).listener =
      .listening ∧
    1 ≤ (Sys.reached (Config.plain false false)
        [.returns (.worker .daemon) (some "listen failed"), .step (.worker .daemon),
         .step (.worker .daemon), .step (.worker .daemon), .selectErr]).wg ∧
    (Sys.reached (Config.plain false false)
        [.returns (.worker .daemon) (some "listen failed"), .step (.worker .daemon),
         .step (.worker .daemon), .step (.worker .daemon), .selectErr]).main ≠ .exited ∧
    (Sys.reached (Config.plain false false)
        [.returns (.worker .daemon) (some "listen failed"), .step (.worker .daemon),
         .step (.worker .daemon), .step (.worker .daemon), .selectErr]).step .waitDone =
      none ∧
    (Sys.init (Config.plain false false)).run
        [.returns (.worker .daemon) (some "listen failed"), .step (.worker .daemon),
         .step (.worker .daemon), .step (.worker .daemon), .selectErr] =
      some { wg := 1, quitCloses := 0, errC := [], sends := 1, listener := .listening,
             daemon := .ready [], rpc := .absent, web := .absent, browser := .absent,
             main := .waiting, cause := some (.errC "listen failed") }) :=
  ⟨by decide, by decide,
    wait_needs_interrupt (Config.plain false false)
      [.returns (.worker .daemon) (some "listen failed"), .step (.worker .daemon),
       .step (.worker .daemon), .step (.worker .daemon), .selectErr]
      (Sys.reached (Config.plain false false)
        [.returns (.worker .daemon) (some "listen failed"), .step (.worker .daemon),
         .step (.worker .daemon), .step (.worker .daemon), .selectErr])
      (by decide) (by decide)⟩

theorem shutdown_without_quit :
    (Sys.init (Config.plain true false)).run
        [.returns (.worker .rpc) (some "rpc failed"), .step (.worker .rpc),
         .step (.worker .rpc), .selectErr] =
      some { wg := 3, quitCloses := 0, errC := [], sends := 1, listener := .listening,
             daemon := .blocked, rpc := .ready [.wgDone], web := .absent,
             browser := .absent, main := .waiting, cause := some (.errC "rpc failed") } := by
  decide

/-- C13, amended: `quit` is closed at most once in every run and never a second time.
It is closed exactly when an interrupt was delivered: once in every run whose shutdown
is triggered by an interrupt, and not at all in a run that receives no interrupt, which
includes runs whose shutdown is triggered by a worker error. -/
theorem quit_closed_at_most_once (c : Config) (acts : List Action) (s : Sys)
    (hrun : (Sys.init c).run acts = some s) :
    s.quitCloses ≤ 1 ∧
    (s.quitCloses = 1 ↔ Action.interrupt ∈ acts) ∧
    (s.quitCloses = 0 ↔ Action.interrupt ∉ acts) ∧
    (s.cause = some .quit → s.quitCloses = 1) := by
  have hinv := run_inv acts _ s (init_inv c) hrun
  have hq := hinv.quit_eq
  have hh := run_handled acts _ s hrun
  rw [init_listening] at hh
  have hcause := run_cause acts _ s hrun (fun hh => by cases hh)
  have hmem : Action.interrupt ∈ acts ↔ 0 < acts.count .interrupt := List.count_pos_iff.symm
  cases hl : s.listener <;> rw [hl] at hq hh <;>
    simp only [Listener.handled, reduceCtorEq, if_true, if_false, Nat.zero_add] at hq hh <;>
    refine ⟨by omega, ?_, ?_, fun hc => by have := hcause hc; omega⟩ <;>
    rw [hmem] <;> omega

theorem quit_closed_at_most_once_witness :
    (Sys.init (Config.plain true true)).run [.interrupt, .selectQuit] =
      some (Sys.reached (Config.plain true true) [.interrupt, .selectQuit]) ∧
    ((Sys.reached (Config.plain true true) [.interrupt, .selectQuit]).quitCloses ≤ 1 ∧
    ((Sys.reached (Config.plain true true) [.interrupt, .selectQuit]).quitCloses = 1 ↔
      Action.interrupt ∈ [Action.interrupt, .selectQuit]) ∧
    ((Sys.reached (Config.plain true true) [.interrupt, .selectQuit]).quitCloses = 0 ↔
      Action.interrupt ∉ [Action.interrupt, .selectQuit]) ∧
    ((Sys.reached (Config.plain true true) [.interrupt, .selectQuit]).cause = some .quit →
      (Sys.reached (Config.plain true true) [.interrupt, .selectQuit]).quitCloses = 1)) :=
  ⟨by decide, quit_closed_at_most_once (Config.plain true true) [.interrupt, .selectQuit]
    (Sys.reached (Config.plain true true) [.interrupt, .selectQuit]) (by decide)⟩

/-- C14: the interrupt handling goes from listening to terminating on the first
interrupt and from there to the abnormal termination (`printProgramStatus` and
`panic("SIGINT")`) on a further one. The panic is reached only by an interrupt delivered
after `quit` was closed: a run that reached it has had exactly two interrupts, a run
with at most one interrupt never reaches it, and no other step than an interrupt
(no step of a worker, of the `select`, of the shutdown or of the final wait) leads
to it. -/
theorem panic_needs_second_interrupt (c : Config) (acts : List Action) (s : Sys)
    (hrun : (Sys.init c).run acts = some s) :
    s.listener.handled = acts.count .interrupt ∧
    (s.listener = .aborted → acts.count .interrupt = 2) ∧
    (acts.count .interrupt ≤ 1 → s.listener ≠ .aborted) ∧
    (∀ a s1, s.step a = some s1 → s1.listener = .aborted →
      a = .interrupt ∧ s.listener = .terminating ∧ s.quitCloses = 1) := by
  have hinv := run_inv acts _ s (init_inv c) hrun
  have hh := run_handled acts _ s hrun
  rw [init_listening] at hh
  simp only [Listener.handled, Nat.zero_add] at hh
  refine ⟨hh, ?_, ?_, ?_⟩
  · intro hl; rw [hl] at hh; exact hh.symm
  · intro hc hl; rw [hl] at hh; simp only [Listener.handled] at hh; omega
  · intro a s1 hs hl
    have hd := not_dead_of_step s s1 a hs
    obtain ⟨h1, h2⟩ := step_listener s s1 a hs
    have ha : a = .interrupt := by
      by_contra hne
      rw [if_neg hne, hl] at h1
      have : s.listener = .aborted := by
        cases hsl : s.listener <;> rw [hsl] at h1 <;> simp [Listener.handled] at h1
      exact hd (Or.inl this)
    have ht := h2 ha hl
    have hq := hinv.quit_eq
    rw [ht] at hq
    exact ⟨ha, ht, by simpa using hq⟩

theorem panic_needs_second_interrupt_witness :
    (Sys.init (Config.plain false false)).run [.interrupt, .selectQuit, .interrupt] =
      some (Sys.reached (Config.plain false false) [.interrupt, .selectQuit, .interrupt]) ∧
    ((Sys.reached (Config.plain false false)
        [.interrupt, .selectQuit, .interrupt]).listener.handled =
      [Action.interrupt, Action.selectQuit, Action.interrupt].count .interrupt ∧
    ((Sys.reached (Config.plain false false)
        [.interrupt, .selectQuit, .interrupt]).listener = .aborted →
      [Action.interrupt, Action.selectQuit, Action.interrupt].count .interrupt = 2) ∧
    ([Action.interrupt, Action.selectQuit, Action.interrupt].count .interrupt ≤ 1 →
      (Sys.reached (Config.plain false false)
        [.interrupt, .selectQuit, .interrupt]).listener ≠ .aborted) ∧
    (∀ a s1, (Sys.reached (Config.plain false false)
        [.interrupt, .selectQuit, .interrupt]).step a = some s1 →
      s1.listener = .aborted →
      a = .interrupt ∧
      (Sys.reached (Config.plain false false)
        [.interrupt, .selectQuit, .interrupt]).listener = .terminating ∧
      (Sys.reached (Config.plain false false)
        [.interrupt, .selectQuit, .interrupt]).quitCloses = 1)) :=
  ⟨by decide, panic_needs_second_interrupt (Config.plain false false)
    [.interrupt, .selectQuit, .interrupt]
    (Sys.reached (Config.plain false false) [.interrupt, .selectQuit, .interrupt])
    (by decide)⟩

/-- C17: in every configuration and at every point of a run, the sends made on the
error channel and the sends the three workers can still make are at most three, a worker
sends at most once, the browser launcher never sends; so the channel never holds more
than three errors, below its capacity of 10, and a worker that is about to send its
error can always do so, also after the main goroutine got past its `select` and no
longer reads the channel. -/
theorem errC_send_never_blocks (c : Config) (acts : List Action) (s : Sys)
    (hrun : (Sys.init c).run acts = some s) :
    s.sends + s.daemon.sendsLeft + s.rpc.sendsLeft + s.web.sendsLeft ≤ 3 ∧
    s.errC.length ≤ s.sends ∧ s.sends ≤ 3 ∧ s.errC.length < errCCapacity ∧
    (∀ result, (worker result).countP WorkerOp.isSend ≤ 1) ∧
    (∀ result, (launchBrowser result).countP WorkerOp.isSend = 0) ∧
    (∀ r err todo, s.listener ≠ .aborted → s.main ≠ .exited →
      s.get r = .ready (.send err :: todo) →
      ∃ s1, s.step (.step r) = some s1 ∧ s1.errC = s.errC ++ [err] ∧
        s1.get r = .ready todo) := by
  have hinv := run_inv acts _ s (init_inv c) hrun
  have h3 := hinv.sends_le
  refine ⟨h3, hinv.buffered_le, by omega, errC_room s hinv, sendsLeft_worker,
    sendsLeft_launchBrowser, ?_⟩
  intro r err todo hl hm hg
  have hd : ¬ (s.listener = .aborted ∨ s.main = .exited) := by
    rintro (h | h)
    · exact hl h
    · exact hm h
  obtain ⟨s2, he⟩ := exec_enabled s hinv r (.send err) todo hg
  refine ⟨s2.set r (.ready todo), ?_, ?_, get_set_same _ _ _⟩
  · rw [step_step s r hd, hg]
    simp only [he, Option.map_some']
  · rw [(set_fields s2 r _).2.2.1, (exec_fields s s2 _ he).2.2.2.2.2.2.2]
    rfl

theorem errC_send_never_blocks_witness :
    (Sys.init (Config.plain true true)).run
        [.returns (.worker .daemon) (some "daemon failed"), .step (.worker .daemon),
         .step (.worker .daemon), .selectErr,
         .returns (.worker .rpc) (some "rpc failed"), .step (.worker .rpc)] =
      some (Sys.reached (Config.plain true true)
        [.returns (.worker .daemon) (some "daemon failed"), .step (.worker .daemon),
         .step (.worker .daemon), .selectErr,
         .returns (.worker .rpc) (some "rpc failed"), .step (.worker .rpc)]) ∧
    (Sys.reached (Config.plain true true)
        [.returns (.worker .daemon) (some "daemon failed"), .step (.worker .daemon),
         .step (.worker .daemon), .selectErr,
         .returns (.worker .rpc) (some "rpc failed"), .step (.worker .rpc)]).rpc =
      .ready [.send "rpc failed", .wgDone] ∧
    ∀ r err todo,
      (Sys.reached (Config.plain true true)
        [.returns (.worker .daemon) (some "daemon failed"), .step (.worker .daemon),
         .step (.worker .daemon), .selectErr,
         .returns (.worker .rpc) (some "rpc failed"), .step (.worker .rpc)]).listener ≠
          .aborted →
      (Sys.reached (Config.plain true true)
        [.returns (.worker .daemon) (some "daemon failed"), .step (.worker .daemon),
         .step (.worker .daemon), .selectErr,
         .returns (.worker .rpc) (some "rpc failed"), .step (.worker .rpc)]).main ≠
          .exited →
      (Sys.reached (Config.plain true true)
        [.returns (.worker .daemon) (some "daemon failed"), .step (.worker .daemon),
         .step (.worker .daemon), .selectErr,
         .returns (.worker .rpc) (some "rpc failed"), .step (.worker .rpc)]).get r =
          .ready (.send err :: todo) →
      ∃ s1, (Sys.reached (Config.plain true true)
        [.returns (.worker .daemon) (some "daemon failed"), .step (.worker .daemon),
         .step (.worker .daemon), .selectErr,
         .returns (.worker .rpc) (some "rpc failed"), .step (.worker .rpc)]).step
          (.step r) = some s1 ∧
        s1.errC = (Sys.reached (Config.plain true true)
          [.returns (.worker .daemon) (some "daemon failed"), .step (.worker .daemon),
           .step (.worker .daemon), .selectErr,
           .returns (.worker .rpc) (some "rpc failed"), .step (.worker .rpc)]).errC ++
            [err] ∧
        s1.get r = .ready todo :=
  ⟨by decide, by decide,
    (errC_send_never_blocks (Config.plain true true)
      [.returns (.worker .daemon) (some "daemon failed"), .step (.worker .daemon),
       .step (.worker .daemon), .selectErr,
       .returns (.worker .rpc) (some "rpc failed"), .step (.worker .rpc)]
      (Sys.reached (Config.plain true true)
        [.returns (.worker .daemon) (some "daemon failed"), .step (.worker .daemon),
         .step (.worker .daemon), .selectErr,
         .returns (.worker .rpc) (some "rpc failed"), .step (.worker .rpc)])
      (by decide)).2.2.2.2.2.2⟩

end suncoin

namespace visor

/-! ### Emission lock policy: the unlocked count and the table -/

/-- C15: what the code does at its shipped constants. `InitialUnlockedCount` is 1, not
the 25 of the comments in `GetUnlockedDistributionAddresses`: the function returns table
position 0 only, and `GetLockedDistributionAddresses` returns the 99 positions 1 to 99,
not the 75 positions 25 to 99. -/
theorem shipped_unlocks_one_address :
    shipped.InitialUnlockedCount = 1 ∧
    GetUnlockedDistributionAddresses shipped =
      some ["2EvQ2MwPeqXqaHs9qRFzWAoByz4ph64jSKU"] ∧
    GetUnlockedDistributionAddresses shipped ≠ some (distributionAddresses.take 25) ∧
    GetLockedDistributionAddresses shipped = some (distributionAddresses.drop 1) ∧
    GetLockedDistributionAddresses shipped ≠ some (distributionAddresses.drop 25) ∧
    (distributionAddresses.drop 1).length = 99 := by
  have hu : GetUnlockedDistributionAddresses shipped = some (distributionAddresses.take 1) :=
    shippedWith_unlocked 1 (by decide)
  have hl : GetLockedDistributionAddresses shipped = some (distributionAddresses.drop 1) :=
    shippedWith_locked 1 (by decide)
  refine ⟨rfl, hu, ?_, hl, ?_, by decide⟩
  · rw [hu]
    intro h
    have := congrArg (fun o => o.map List.length) h
    revert this
    decide
  · rw [hl]
    intro h
    have := congrArg (fun o => o.map List.length) h
    revert this
    decide

/-- C16: the 100 entries of the hardcoded table are pairwise distinct, so an address
string is at one table position at most, and for every `InitialUnlockedCount` up to the
total an address string is in the locked list exactly when it has a table position at
or after `InitialUnlockedCount`, which is then its only position. -/
theorem distributionAddresses_distinct (n : Nat)
    (hn : n ≤ shipped.DistributionAddressesTotal) :
    distributionAddresses.length = 100 ∧ distributionAddresses.Nodup ∧
    (∀ (i j : Nat) (a : String),
      distributionAddresses[i]? = some a → distributionAddresses[j]? = some a →
      i = j) ∧
    ∃ locked, GetLockedDistributionAddresses (shippedWith n) = some locked ∧
      ∀ a : String, (a ∈ locked ↔ ∃ i : Nat, n ≤ i ∧ distributionAddresses[i]? = some a) ∧
        (∀ i : Nat, distributionAddresses[i]? = some a → (a ∈ locked ↔ n ≤ i)) := by
  have hinj : ∀ (i j : Nat) (a : String), distributionAddresses[i]? = some a →
      distributionAddresses[j]? = some a → i = j := by
    intro i j a hi hj
    have hlt : i < distributionAddresses.length := by
      by_contra hc
      rw [List.getElem?_eq_none (by omega)] at hi
      cases hi
    exact List.getElem?_inj hlt distributionAddresses_nodup (hi.trans hj.symm)
  have hmem : ∀ a : String, a ∈ distributionAddresses.drop n ↔
      ∃ i : Nat, n ≤ i ∧ distributionAddresses[i]? = some a := by
    intro a
    rw [List.mem_iff_getElem?]
    constructor
    · rintro ⟨k, hk⟩
      rw [List.getElem?_drop] at hk
      exact ⟨n + k, Nat.le_add_right _ _, hk⟩
    · rintro ⟨i, hi, ha⟩
      refine ⟨i - n, ?_⟩
      rw [List.getElem?_drop, Nat.add_sub_cancel' hi]
      exact ha
  refine ⟨distributionAddresses_length, distributionAddresses_nodup, hinj,
    distributionAddresses.drop n, shippedWith_locked n hn, fun a => ⟨hmem a, ?_⟩⟩
  intro i hi
  rw [hmem a]
  constructor
  · rintro ⟨j, hj, ha⟩
    rw [hinj i j a hi ha]; exact hj
  · intro h; exact ⟨i, h, hi⟩

theorem distributionAddresses_distinct_witness :
    1 ≤ shipped.DistributionAddressesTotal ∧
    (distributionAddresses.length = 100 ∧ distributionAddresses.Nodup ∧
    (∀ (i j : Nat) (a : String),
      distributionAddresses[i]? = some a → distributionAddresses[j]? = some a →
      i = j) ∧
    ∃ locked, GetLockedDistributionAddresses (shippedWith 1) = some locked ∧
      ∀ a : String, (a ∈ locked ↔ ∃ i : Nat, 1 ≤ i ∧ distributionAddresses[i]? = some a) ∧
        (∀ i : Nat, distributionAddresses[i]? = some a → (a ∈ locked ↔ 1 ≤ i))) :=
  ⟨by decide, distributionAddresses_distinct 1 (by decide)⟩

end visor

namespace suncoin

/-! ### The genesis distribution transaction -/

theorem round_out {α : Type} (lib : Vendored α) (hs : lib.Sound) (tx tx1 : Transaction α)
    (i : Nat) (h : InitTransaction.round lib tx i = some tx1) :
    ∃ a addr, AddrList[i]? = some a ∧ lib.MustDecodeBase58Address a = some addr ∧
      tx1.Out = tx.Out ++ [⟨addr, 3000000000000, 1⟩] := by
  unfold InitTransaction.round at h
  cases ha : AddrList[i]? with
  | none => rw [ha] at h; cases h
  | some a =>
    rw [ha] at h
    cases hd : lib.MustDecodeBase58Address a with
    | none =>
      simp only [Option.bind_eq_bind, Option.some_bind, hd, Option.none_bind] at h
      cases h
    | some addr =>
      simp only [Option.bind_eq_bind, Option.some_bind, hd, Option.pure_def,
        Option.some.injEq] at h
      subst h
      exact ⟨a, addr, rfl, hd, hs.pushOutput _ _ _ _⟩

theorem rounds_out {α : Type} (lib : Vendored α) (hs : lib.Sound) (n : Nat) :
    ∀ (tx tx1 : Transaction α),
      (List.range n).foldlM (InitTransaction.round lib) tx = some tx1 →
      ∃ outs : List (TransactionOutput α), tx1.Out = tx.Out ++ outs ∧ outs.length = n ∧
        ∀ o ∈ outs, o.Coins = 3000000000000 ∧ o.Hours = 1 := by
  induction n with
  | zero =>
    intro tx tx1 h
    simp only [List.range_zero, List.foldlM_nil, Option.pure_def, Option.some.injEq] at h
    subst h
    exact ⟨[], (List.append_nil _).symm, rfl, fun o ho => by cases ho⟩
  | succ n ih =>
    intro tx tx1 h
    rw [List.range_succ, List.foldlM_append] at h
    cases hm : (List.range n).foldlM (InitTransaction.round lib) tx with
    | none => rw [hm] at h; cases h
    | some tx2 =>
      rw [hm] at h
      simp only [Option.bind_eq_bind, Option.some_bind, List.foldlM_cons, List.foldlM_nil] at h
      cases hr : InitTransaction.round lib tx2 n with
      | none => rw [hr] at h; cases h
      | some tx3 =>
        rw [hr] at h
        simp only [Option.some_bind, Option.pure_def, Option.some.injEq] at h
        subst h
        obtain ⟨outs, h1, h2, h3⟩ := ih tx tx2 hm
        obtain ⟨a, addr, _, _, h4⟩ := round_out lib hs tx2 tx3 n hr
        refine ⟨outs ++ [⟨addr, 3000000000000, 1⟩], ?_, ?_, ?_⟩
        · rw [h4, h1, List.append_assoc]
        · rw [List.length_append, h2]; rfl
        · intro o ho
          rcases List.mem_append.1 ho with ho | ho
          · exact h3 o ho
          · rw [List.mem_singleton] at ho; subst ho; exact ⟨rfl, rfl⟩

theorem rounds_return {α : Type} (lib : Vendored α)
    (hdec : ∀ a ∈ AddrList, (lib.MustDecodeBase58Address a).isSome) (n : Nat)
    (hn : n ≤ AddrList.length) :
    ∀ tx : Transaction α,
      ∃ tx1, (List.range n).foldlM (InitTransaction.round lib) tx = some tx1 := by
  induction n with
  | zero => intro tx; exact ⟨tx, rfl⟩
  | succ n ih =>
    intro tx
    obtain ⟨tx2, h2⟩ := ih (by omega) tx
    have hlt : n < AddrList.length := by omega
    have hget : AddrList[n]? = some AddrList[n] := List.getElem?_eq_getElem hlt
    have hsome := hdec AddrList[n] (List.getElem_mem hlt)
    obtain ⟨addr, haddr⟩ := Option.isSome_iff_exists.1 hsome
    refine ⟨lib.PushOutput tx2 addr 3000000000000 1, ?_⟩
    rw [List.range_succ, List.foldlM_append, h2]
    simp only [Option.bind_eq_bind, Option.some_bind, List.foldlM_cons, List.foldlM_nil,
      InitTransaction.round, hget, haddr, Option.pure_def]

theorem sum_coins {α : Type} (outs : List (TransactionOutput α)) (v : Nat)
    (h : ∀ o ∈ outs, o.Coins = v) : (outs.map (fun o => o.Coins)).sum = outs.length * v := by
  induction outs with
  | nil => simp
  | cons o outs ih =>
    rw [List.map_cons, List.sum_cons, List.length_cons,
      ih (fun x hx => h x (List.mem_cons_of_mem _ hx)), h o (List.mem_cons_self _ _)]
    ring

end suncoin

namespace suncoin

/-- C18: when the vendored `PushOutput` appends the output it is given and `PushInput`
and `UpdateHeader` leave the outputs alone, the transaction `InitTransaction` returns
has exactly 100 outputs of 3e12 units (and 1 hour) each, and the sum of their amounts is
`GenesisCoinVolume`, 300e12, which is `DistributionAddressesTotal` times
`DistributionAddressInitialBalance` times 10^6 and below 2^64, as is every amount.
`InitTransaction` returns whenever its hexadecimal constants and the 100 entries of
`AddrList` decode and `Verify` accepts the transaction. -/
theorem InitTransaction_outputs {α : Type} (lib : Vendored α) (hs : lib.Sound) :
    (∀ tx, InitTransaction lib = some tx →
      tx.Out.length = 100 ∧
      (∀ o ∈ tx.Out, o.Coins = 3000000000000 ∧ o.Hours = 1) ∧
      (tx.Out.map (fun o => o.Coins)).sum = GenesisCoinVolume) ∧
    GenesisCoinVolume = 300000000000000 ∧
    GenesisCoinVolume =
      visor.shipped.DistributionAddressesTotal *
        visor.DistributionAddressInitialBalance visor.shipped * 10 ^ 6 ∧
    GenesisCoinVolume < 2 ^ 64 ∧
    ((lib.MustSHA256FromHex InitTransaction.outputHex).isSome →
      (∀ a ∈ AddrList, (lib.MustDecodeBase58Address a).isSome) →
      (lib.MustSigFromHex InitTransaction.sigHex).isSome →
      (∀ tx, lib.Verify tx = none) →
      ∃ tx, InitTransaction lib = some tx) := by
  refine ⟨?_, rfl, by decide, by decide, ?_⟩
  · intro tx h
    unfold InitTransaction at h
    simp only [Option.bind_eq_bind, Option.bind_eq_some] at h
    obtain ⟨out, _, tx2, h2, sig, _, h4⟩ := h
    obtain ⟨outs, o1, o2, o3⟩ := rounds_out lib hs 100 _ tx2 h2
    rw [hs.pushInput] at o1
    have hz : (Transaction.zero : Transaction α).Out = [] := rfl
    rw [hz, List.nil_append] at o1
    split at h4
    · cases h4
    · simp only [Option.some.injEq] at h4
      subst h4
      rw [hs.updateHeader]
      show tx2.Out.length = 100 ∧ (∀ o ∈ tx2.Out, o.Coins = 3000000000000 ∧ o.Hours = 1) ∧
        (tx2.Out.map (fun o => o.Coins)).sum = GenesisCoinVolume
      rw [o1]
      refine ⟨o2, o3, ?_⟩
      rw [sum_coins outs 3000000000000 (fun o ho => (o3 o ho).1), o2]
      rfl
  · intro h1 h2 h3 h4
    obtain ⟨out, hout⟩ := Option.isSome_iff_exists.1 h1
    obtain ⟨sig, hsig⟩ := Option.isSome_iff_exists.1 h3
    obtain ⟨tx2, htx2⟩ := rounds_return lib h2 100 (by decide)
      (lib.PushInput Transaction.zero out)
    unfold InitTransaction
    simp only [Option.bind_eq_bind, hout, Option.some_bind, htx2, hsig, h4]
    exact ⟨_, rfl⟩

theorem InitTransaction_outputs_witness :
    Vendored.plain.Sound ∧
    ((∀ tx, InitTransaction Vendored.plain = some tx →
      tx.Out.length = 100 ∧
      (∀ o ∈ tx.Out, o.Coins = 3000000000000 ∧ o.Hours = 1) ∧
      (tx.Out.map (fun o => o.Coins)).sum = GenesisCoinVolume) ∧
    GenesisCoinVolume = 300000000000000 ∧
    GenesisCoinVolume =
      visor.shipped.DistributionAddressesTotal *
        visor.DistributionAddressInitialBalance visor.shipped * 10 ^ 6 ∧
    GenesisCoinVolume < 2 ^ 64 ∧
    ((Vendored.plain.MustSHA256FromHex InitTransaction.outputHex).isSome →
      (∀ a ∈ AddrList, (Vendored.plain.MustDecodeBase58Address a).isSome) →
      (Vendored.plain.MustSigFromHex InitTransaction.sigHex).isSome →
      (∀ tx, Vendored.plain.Verify tx = none) →
      ∃ tx, InitTransaction Vendored.plain = some tx)) :=
  ⟨⟨fun _ _ _ _ => rfl, fun _ _ => rfl, fun _ => rfl⟩,
    InitTransaction_outputs Vendored.plain ⟨fun _ _ _ _ => rfl, fun _ _ => rfl, fun _ => rfl⟩⟩

end suncoin
